import Mathlib

/-!
Shallow embedding of the audio-server render core
(`src/src/lib/audio/output.rs`) and proofs about it.

Modelling conventions:
* `f32`/`f64` sample and gain arithmetic is modelled exactly over `ℚ`.
* Hash maps (`FxHashMap`) are modelled as association lists; iteration order
  stands in for the map's unspecified order, and key lookup scans from the
  front.  `remove` erases every entry with the key (keys are unique in a
  real hash map).
* The non-blocking channel sends (`try_send(..).ok()` / `send(..).ok()`)
  never affect the model state; they are modelled by collecting the
  attempted messages into output lists.
* Components of the repository that are referenced by `output.rs` but whose
  code is not under `src/` (the detector module, the DBAP solver, the fft
  helpers, `utils::rad_mag_to_x_y`, the `Installation` enumeration, the
  signal/`Sound`/`Speaker` entity types) are modelled from the spec; each
  such definition carries a doc comment starting with `Modelled from the
  spec:`.
-/

/-- Modelled from the spec: `Installation` is an opaque, hashable, enumerated
grouping key defined outside `src/`; three keys suffice for this development. -/
inductive Installation where
  | instA
  | instB
  | instC
deriving DecidableEq

/-- Modelled from the spec: the enumerated set of all installations
(`installation::ALL`). -/
def Installation.ALL : List Installation := [.instA, .instB, .instC]

/-- Floor square root by bounded descending search (structural recursion, so
it evaluates inside the kernel). -/
def natSqrtAux (k n : ℕ) : ℕ :=
  match k with
  | 0 => 0
  | Nat.succ j => if (j + 1) * (j + 1) ≤ n then j + 1 else natSqrtAux j n

/-- Floor square root. -/
def natSqrt (n : ℕ) : ℕ := natSqrtAux n n

/-- Modelled from the spec: stand-in for `f32::sqrt`.  Exact on rationals whose
numerator and denominator are perfect squares (the only inputs the concrete
scenarios below use); elsewhere it returns the floor-square-root approximation,
mirroring the fact that `f32::sqrt` is itself inexact. -/
def ratSqrt (q : ℚ) : ℚ :=
  if q ≤ 0 then 0 else (natSqrt q.num.toNat : ℚ) / (natSqrt q.den : ℚ)

/-- Modelled from the spec: the FFT window length `FFT_WINDOW_LEN` is defined
in the detector module, outside `src/`; the claims depend only on it being a
fixed even constant. -/
def FFT_WINDOW_LEN : ℕ := 16

/-- A 2D point (the source's `Point2<Metres>` with the `Metres` newtype
unwrapped to `ℚ`). -/
structure Point2Q where
  x : ℚ
  y : ℚ
deriving DecidableEq

/-- Modelled from the spec: the envelope detector maintains running RMS and
peak from a sample stream; `next` updates state and `current` reads `(rms,
peak)` without resetting.  The state is kept as the full fed-sample history so
that "detector state reflects all samples fed" is directly statable; `current`
derives the running RMS (root of the mean square) and peak (largest absolute
sample) from the history. -/
structure EnvDetector where
  history : List ℚ
deriving DecidableEq

def EnvDetector.new : EnvDetector := ⟨[]⟩

def EnvDetector.next (d : EnvDetector) (s : ℚ) : EnvDetector := ⟨d.history ++ [s]⟩

def EnvDetector.current (d : EnvDetector) : ℚ × ℚ :=
  (ratSqrt ((d.history.map (fun s => s * s)).sum / (d.history.length : ℚ)),
   d.history.foldl (fun p s => max |s| p) 0)

/-- Modelled from the spec: the FFT detector keeps a fixed-length rolling
sample window; `push` shifts the window. -/
structure FftDetector where
  window : List ℚ
deriving DecidableEq

def FftDetector.new : FftDetector := ⟨[]⟩

def FftDetector.push (d : FftDetector) (s : ℚ) : FftDetector :=
  let w := d.window ++ [s]
  ⟨if FFT_WINDOW_LEN < w.length then w.drop (w.length - FFT_WINDOW_LEN) else w⟩

/-- Modelled from the spec: `calc_fft` transforms the window into
`FFT_WINDOW_LEN / 2` magnitude-squared frequency bins.  The discrete Fourier
transform itself lives outside `src/` and its twiddle factors are irrational,
so a degenerate transform (per-sample squared magnitudes of the zero-padded
window) stands in; every claim below depends only on `calc_fft` being a
deterministic function of the detector state. -/
def FftDetector.calcFft (d : FftDetector) : List ℚ :=
  let padded := List.replicate (FFT_WINDOW_LEN - d.window.length) 0 ++ d.window
  (padded.map (fun s => s * s)).take (FFT_WINDOW_LEN / 2)

/-- Modelled from the spec: `fft::lmh` derives a low/mid/high 3-band summary
from the magnitude-squared bin array (three contiguous thirds, summed). -/
def fftLmh (amps2 : List ℚ) : ℚ × ℚ × ℚ :=
  let t := amps2.length / 3
  ((amps2.take t).sum, ((amps2.drop t).take t).sum, (amps2.drop (2 * t)).sum)

/-- Modelled from the spec: `fft::mel_bins` derives an 8-band summary from the
magnitude-squared bin array (eight contiguous chunks, summed). -/
def fftMelBins (amps2 : List ℚ) : List ℚ :=
  (List.range 8).map (fun k => ((amps2.drop (k * (amps2.length / 8))).take (amps2.length / 8)).sum)

/-- Modelled from the spec: the external `Signal` kinds that `render`
distinguishes.  `wavContinuous` is a `Wav` source with `Playback::Continuous`;
it carries its backing file as a sample list so that the reseek in `render`
(line 420-427 of `output.rs`) is representable.  File-system I/O failure of
`samples.seek` is not representable in a shallow embedding, so the modelled
seek always succeeds. -/
inductive SignalKind where
  | normal
  | wavContinuous (file : List ℚ)
deriving DecidableEq

/-- Modelled from the spec: a signal lazily yields samples; it is modelled by
the list of samples it has left to yield.  Infinite signals are outside the
reach of the finite scenarios below, so every modelled signal is finite. -/
structure Signal where
  remaining : List ℚ
  kind : SignalKind
deriving DecidableEq

/-- Modelled from the spec: `signal.remaining_frames()`; finite signals report
their remaining duration.  Signals are modelled at sample granularity. -/
def Signal.remaining_frames (s : Signal) : Option ℕ := some s.remaining.length

/-- Modelled from the spec: the external `Sound` entity consumed by reference:
source id, 2D position, channel count, volume, mute flag, installation set,
playing flag, and the signal.  `spread`/`radians` parameterise the per-channel
spatial placement consumed by `sound.channel_points()`. -/
structure Sound where
  source_id : ℕ
  position : Point2Q
  channels : ℕ
  volume : ℚ
  muted : Bool
  playing : Bool
  spread : ℚ
  radians : ℚ
  installations : List Installation
  signal : Signal
deriving DecidableEq

/-- Modelled from the spec: the external `Speaker` entity: physical position,
assigned output channel index and installation memberships. -/
structure Speaker where
  point : Point2Q
  channel : ℕ
  installations : List Installation
deriving DecidableEq

/-- `ActiveSound` (output.rs lines 31-35): a sound plus one envelope detector
per channel and the total duration captured at creation. -/
structure ActiveSound where
  sound : Sound
  channel_detectors : List EnvDetector
  total_duration_frames : Option ℕ
deriving DecidableEq

/-- `ActiveSound::new` (output.rs lines 45-56). -/
def ActiveSound.new (sound : Sound) : ActiveSound :=
  { sound
    channel_detectors := List.replicate sound.channels EnvDetector.new
    total_duration_frames := sound.signal.remaining_frames }

/-- `ActiveSound::normalised_progress` (output.rs lines 59-70). -/
def ActiveSound.normalised_progress (a : ActiveSound) : Option ℚ :=
  match a.sound.signal.remaining_frames, a.total_duration_frames with
  | some remaining, some total => some (((total : ℚ) - (remaining : ℚ)) / (total : ℚ))
  | _, _ => none

/-- `ActiveSpeaker` (output.rs lines 37-41). -/
structure ActiveSpeaker where
  speaker : Speaker
  env_detector : EnvDetector
  fft_detector : FftDetector
deriving DecidableEq

/-- `SpeakerAnalysis` (output.rs lines 86-90). -/
structure SpeakerAnalysis where
  rms : ℚ
  peak : ℚ
  index : ℕ
deriving DecidableEq

/-- `gui::SpeakerMessage`. -/
inductive SpeakerMessage where
  | add
  | remove
  | update (rms : ℚ) (peak : ℚ)
deriving DecidableEq

/-- `gui::ActiveSoundMessage`. -/
inductive ActiveSoundMessage where
  | start (source_id : ℕ) (position : Point2Q) (channels : ℕ) (normalised_progress : Option ℚ)
  | update (source_id : ℕ) (position : Point2Q) (channels : ℕ) (normalised_progress : Option ℚ)
  | updateChannel (index : ℕ) (rms : ℚ) (peak : ℚ)
  | End (sound : ActiveSound)
deriving DecidableEq

/-- `gui::AudioMonitorMessage`. -/
inductive AudioMonitorMessage where
  | speaker (id : ℕ) (msg : SpeakerMessage)
  | activeSound (id : ℕ) (msg : ActiveSoundMessage)
  | master (peak : ℚ)
deriving DecidableEq

/-- `osc::output::FftData`. -/
structure OscFftData where
  lmh : List ℚ
  bins : List ℚ
deriving DecidableEq

/-- `osc::output::Speaker`. -/
structure OscSpeaker where
  rms : ℚ
  peak : ℚ
deriving DecidableEq

/-- `osc::output::AudioFrameData`. -/
structure AudioFrameData where
  avg_peak : ℚ
  avg_rms : ℚ
  avg_fft : OscFftData
  speakers : List OscSpeaker
deriving DecidableEq

/-- `osc::output::Message` (only the variant `render` produces). -/
inductive OscOutputMessage where
  | audio (installation : Installation) (data : AudioFrameData)
deriving DecidableEq

/-- The soundscape-thread update closure sent on sound completion; the only
closure the core sends is `remove_active_sound(id)`. -/
inductive SoundscapeMessage where
  | removeActiveSound (id : ℕ)
deriving DecidableEq

/-- Association-list lookup (hash-map `get`): first entry with the key. -/
def lookupK {κ α : Type} [DecidableEq κ] (l : List (κ × α)) (k : κ) : Option α :=
  match l with
  | [] => none
  | p :: t => if p.1 = k then some p.2 else lookupK t k

/-- Association-list key removal (hash-map `remove`): erases every entry with
the key (a hash map holds at most one). -/
def eraseKey {κ α : Type} [DecidableEq κ] (l : List (κ × α)) (k : κ) : List (κ × α) :=
  l.filter (fun p => ¬ p.1 = k)

/-- The audio-thread `Model` state (output.rs lines 93-135).  The message
channels are modelled by returning the attempted messages from each operation;
`dbap_speakers`, `dbap_speaker_gains` and the FFT scratch objects are
write-before-read scratch cleared at every use, so they carry no state between
operations and are not part of the modelled state. -/
structure Model where
  frame_count : ℕ
  master_volume : ℚ
  dbap_rolloff_db : ℚ
  soloed : List ℕ
  sounds : List (ℕ × ActiveSound)
  speakers : List (ℕ × ActiveSpeaker)
  unmixed_samples : List ℚ
  exhausted_sounds : List ℕ
  installation_analyses : List (Installation × List SpeakerAnalysis)
deriving DecidableEq

/-- Result of `Model::insert_speaker`: the displaced speaker, the new state,
and the GUI messages whose send was attempted. -/
structure InsertSpeakerResult where
  returned : Option Speaker
  model : Model
  gui : List AudioMonitorMessage
deriving DecidableEq

/-- `Model::insert_speaker` (output.rs lines 224-245): re-uses the old
detectors if the id is present, always attempts one `Add` GUI message. -/
def Model.insert_speaker (m : Model) (id : ℕ) (speaker : Speaker) : InsertSpeakerResult :=
  let edo :=
    match lookupK m.speakers id with
    | none => (EnvDetector.new, FftDetector.new, (none : Option Speaker))
    | some a => (a.env_detector, a.fft_detector, some a.speaker)
  let active : ActiveSpeaker :=
    { speaker, env_detector := edo.1, fft_detector := edo.2.1 }
  { returned := edo.2.2
    model := { m with speakers := eraseKey m.speakers id ++ [(id, active)] }
    gui := [.speaker id .add] }

/-- Result of `Model::remove_speaker`. -/
structure RemoveSpeakerResult where
  returned : Option Speaker
  model : Model
  gui : List AudioMonitorMessage
deriving DecidableEq

/-- `Model::remove_speaker` (output.rs lines 248-256). -/
def Model.remove_speaker (m : Model) (id : ℕ) : RemoveSpeakerResult :=
  match lookupK m.speakers id with
  | none => { returned := none, model := m, gui := [] }
  | some a =>
      { returned := some a.speaker
        model := { m with speakers := eraseKey m.speakers id }
        gui := [.speaker id .remove] }

/-- `Model::insert_speaker_installation` (output.rs lines 259-264); hash-set
`insert` returns whether the element was newly inserted. -/
def Model.insert_speaker_installation (m : Model) (id : ℕ) (inst : Installation) : Bool × Model :=
  match lookupK m.speakers id with
  | none => (false, m)
  | some a =>
      if a.speaker.installations.contains inst then
        (false, m)
      else
        (true,
         { m with speakers := m.speakers.map (fun p =>
             if p.1 = id then
               (p.1, { p.2 with speaker :=
                 { p.2.speaker with installations := p.2.speaker.installations ++ [inst] } })
             else p) })

/-- `Model::remove_speaker_installation` (output.rs lines 267-272); hash-set
`remove` returns whether the element was present. -/
def Model.remove_speaker_installation (m : Model) (id : ℕ) (inst : Installation) : Bool × Model :=
  match lookupK m.speakers id with
  | none => (false, m)
  | some a =>
      if a.speaker.installations.contains inst then
        (true,
         { m with speakers := m.speakers.map (fun p =>
             if p.1 = id then
               (p.1, { p.2 with speaker :=
                 { p.2.speaker with installations :=
                     p.2.speaker.installations.filter (fun i => ¬ i = inst) } })
             else p) })
      else (false, m)

/-- Result of `Model::insert_sound`. -/
structure InsertSoundResult where
  returned : Option ActiveSound
  model : Model
  gui : List AudioMonitorMessage
deriving DecidableEq

/-- `Model::insert_sound` (output.rs lines 275-289). -/
def Model.insert_sound (m : Model) (id : ℕ) (sound : ActiveSound) : InsertSoundResult :=
  { returned := lookupK m.sounds id
    model := { m with sounds := eraseKey m.sounds id ++ [(id, sound)] }
    gui := [.activeSound id (.start sound.sound.source_id sound.sound.position
              sound.sound.channels sound.normalised_progress)] }

/-- `Model::update_sound` (output.rs lines 292-303): the `FnOnce(&mut Sound)`
mutator is modelled as a pure `Sound → Sound` function applied in place. -/
def Model.update_sound (m : Model) (id : ℕ) (f : Sound → Sound) : Bool × Model :=
  match lookupK m.sounds id with
  | none => (false, m)
  | some _ =>
      (true,
       { m with sounds := m.sounds.map (fun p =>
           if p.1 = id then (p.1, { p.2 with sound := f p.2.sound }) else p) })

/-- `Model::update_sounds_with_source` (output.rs lines 308-318): applies the
mutator to every sound with the given source id and counts them. -/
def Model.update_sounds_with_source (m : Model) (src : ℕ) (f : ℕ → Sound → Sound) : ℕ × Model :=
  ((m.sounds.filter (fun p => p.2.sound.source_id = src)).length,
   { m with sounds := m.sounds.map (fun p =>
       if p.2.sound.source_id = src then (p.1, { p.2 with sound := f p.1 p.2.sound }) else p) })

/-- Result of `Model::remove_sound`. -/
structure RemoveSoundResult where
  removed : Bool
  model : Model
  gui : List AudioMonitorMessage
  soundscape : List SoundscapeMessage
deriving DecidableEq

/-- `Model::remove_sound` (output.rs lines 323-340): removes and, if present,
attempts one `End` GUI message (carrying the removed sound) and one soundscape
removal closure. -/
def Model.remove_sound (m : Model) (id : ℕ) : RemoveSoundResult :=
  match lookupK m.sounds id with
  | none => { removed := false, model := m, gui := [], soundscape := [] }
  | some a =>
      { removed := true
        model := { m with sounds := eraseKey m.sounds id }
        gui := [.activeSound id (.End a)]
        soundscape := [.removeActiveSound id] }

/-- Modelled from the spec: rational stand-in for `std::f32::consts::PI`
(irrational; value immaterial to every claim). -/
def piQ : ℚ := 355 / 113

/-- Modelled from the spec: fixed-degree Taylor stand-in for `f32::cos`
(irrational in general; value immaterial to every claim). -/
def cosQ (x : ℚ) : ℚ := 1 - x ^ 2 / 2 + x ^ 4 / 24 - x ^ 6 / 720

/-- Modelled from the spec: fixed-degree Taylor stand-in for `f32::sin`. -/
def sinQ (x : ℚ) : ℚ := x - x ^ 3 / 6 + x ^ 5 / 120 - x ^ 7 / 5040

/-- Modelled from the spec: `utils::rad_mag_to_x_y` (outside `src/`) converts
an angle and magnitude to a relative cartesian offset on a circle. -/
def rad_mag_to_x_y (radians : ℚ) (mag : ℚ) : ℚ × ℚ :=
  (mag * cosQ radians, mag * sinQ radians)

/-- The arithmetic of `channel_point` (output.rs lines 625-644) after its
`assert!(channel_index < total_channels)` has passed: a single-channel sound's
point is the sound's position; otherwise the channel is placed on a circle of
radius `spread` at an even angular phase offset from `radians`. -/
def channelPointCore (sound_point : Point2Q) (channel_index total_channels : ℕ)
    (spread : ℚ) (radians : ℚ) : Point2Q :=
  if total_channels = 1 then sound_point
  else
    let phase : ℚ := (channel_index : ℚ) / (total_channels : ℚ)
    let channel_radians_offset := phase * piQ * 2
    let r := radians + channel_radians_offset
    let rel := rad_mag_to_x_y r spread
    { x := sound_point.x + rel.1, y := sound_point.y + rel.2 }

/-- `channel_point` (output.rs lines 625-644); the `assert!` panic on
`channel_index ≥ total_channels` is modelled as `none`. -/
def channel_point (sound_point : Point2Q) (channel_index total_channels : ℕ)
    (spread : ℚ) (radians : ℚ) : Option Point2Q :=
  if channel_index < total_channels then
    some (channelPointCore sound_point channel_index total_channels spread radians)
  else none

/-- Modelled from the spec: `sound.channel_points()` yields one emission point
per channel of the sound, via `channel_point` (every index satisfies its
assertion). -/
def Sound.channel_points (s : Sound) : List Point2Q :=
  (List.range s.channels).map
    (fun i => channelPointCore s.position i s.channels s.spread s.radians)

/-- Modelled from the spec: `audio::DISTANCE_BLUR`, the small positive blur
constant avoiding a zero-distance singularity (value external to `src/`). -/
def DISTANCE_BLUR : ℚ := 1 / 100

/-- `dbap::Speaker`: a (blurred squared distance, installation-overlap weight)
pair for one eligible output channel. -/
structure DbapSpeaker where
  distance : ℚ
  weight : ℚ
deriving DecidableEq

/-- Modelled from the spec: `dbap::blurred_distance_2` — squared euclidean
distance combined with the positive blur constant, so it is positive even at
zero separation. -/
def blurred_distance_2 (a b : Point2Q) (blur : ℚ) : ℚ :=
  (a.x - b.x) ^ 2 + (a.y - b.y) ^ 2 + blur

/-- Modelled from the spec: `speaker::dbap_weight` reflects how much the
sound's installation membership overlaps the speaker's; modelled as the size
of the overlap. -/
def dbap_weight (soundInsts speakerInsts : List Installation) : ℚ :=
  ((soundInsts.filter (fun i => speakerInsts.contains i)).length : ℚ)

/-- Modelled from the spec: `dbap::SpeakerGains` — one gain per listed
speaker, falling off with (blurred, squared) distance, scaled by the weight
and normalised relative to the other listed speakers.  The precise
rolloff-in-decibels shaping lives outside `src/`; a reciprocal falloff stands
in, and `rolloff_db` is carried to keep the call shape of the source.  A
speaker not in the list takes no part in the normalisation. -/
def dbapSpeakerGains (speakers : List DbapSpeaker) (rolloff_db : ℚ) : List ℚ :=
  let unnormalized := speakers.map (fun s => s.weight / s.distance)
  let total := unnormalized.sum
  unnormalized.map (fun u => if total = 0 then 0 else u / total)

/-- The nannou output `Buffer`: a fixed device channel count and interleaved
frames (one inner list per frame, one sample per device channel). -/
structure Buffer where
  channels : ℕ
  frames : List (List ℚ)
deriving DecidableEq

/-- The per-invocation context split out of the `Model` at the top of `render`
(output.rs lines 352-370). -/
structure SoundCtx where
  soloed : List ℕ
  frame_count : ℕ
  dbap_rolloff_db : ℚ
  speakers : List (ℕ × ActiveSpeaker)
  bufChannels : ℕ
  bufFrames : ℕ

/-- The mute/solo skip condition (output.rs line 410). -/
def soundSkipsSilent (soloed : List ℕ) (s : Sound) : Bool :=
  s.muted || (!soloed.isEmpty && !soloed.contains s.source_id)

/-- The `Continuous` WAV reseek (output.rs lines 420-427): a continuous WAV
signal is repositioned to the global frame count; other kinds are untouched.
The modelled seek always succeeds (see `SignalKind`). -/
def seekSignal (frame_count : ℕ) (sig : Signal) : Signal :=
  match sig.kind with
  | .normal => sig
  | .wavContinuous file => { sig with remaining := file.drop frame_count }

/-- Pulling `n` samples from the signal iterator advances it (`samples()` is
consuming). -/
def advanceSignal (n : ℕ) (sig : Signal) : Signal :=
  { sig with remaining := sig.remaining.drop n }

/-- The refilled `unmixed_samples` scratch for one sound (output.rs lines
429-445): the samples actually yielded, padded with silence up to
`num_samples`. -/
def unmixedOf (n : ℕ) (sig : Signal) : List ℚ :=
  let taken := sig.remaining.take n
  taken ++ List.replicate (n - taken.length) 0

/-- In-place update of the element at an index (no-op when out of range). -/
def listModifyIdx {α : Type} (l : List α) (n : ℕ) (f : α → α) : List α :=
  match l, n with
  | [], _ => []
  | a :: t, 0 => f a :: t
  | a :: t, Nat.succ k => a :: listModifyIdx t k f

/-- Feeding the pulled samples through the channel detectors (output.rs lines
432-437): the `k`-th sample written goes to detector `k % channels`. -/
def feedDetectors (channels : ℕ) (dets : List EnvDetector) (samples : List ℚ) :
    List EnvDetector :=
  (samples.foldl
    (fun (p : List EnvDetector × ℕ) s =>
      (listModifyIdx p.1 (p.2 % channels) (fun d => d.next s), p.2 + 1))
    (dets, 0)).1

/-- The `dbap_speakers` buffer rebuilt for one sound channel (output.rs lines
458-477): for each device channel in order, if some speaker is assigned that
channel, its blurred squared distance to the channel point and its
installation-overlap weight are pushed; channels with no speaker are excluded
(not given zero gain). -/
def dbapSpeakersFor (speakers : List (ℕ × ActiveSpeaker)) (bufChannels : ℕ)
    (soundInsts : List Installation) (cp : Point2Q) : List DbapSpeaker :=
  (List.range bufChannels).foldl
    (fun acc channel =>
      match speakers.find? (fun p => p.2.speaker.channel = channel) with
      | none => acc
      | some p =>
          acc ++ [{ distance := blurred_distance_2 cp p.2.speaker.point DISTANCE_BLUR
                    weight := dbap_weight soundInsts p.2.speaker.installations }])
    []

/-- Mixing one sound channel into the buffer frames (output.rs lines 484-495):
`sample_index` starts at the channel index and steps by the sound's channel
count; each gain is added at the device channel equal to its position in the
gain list, only where the frame has such a channel. -/
def mixChannel (unmixed : List ℚ) (gains : List ℚ) (volume : ℚ)
    (i channels : ℕ) (frames : List (List ℚ)) : List (List ℚ) :=
  (frames.foldl
    (fun (p : List (List ℚ) × ℕ) frame =>
      let channel_sample := unmixed.getD p.2 0
      (p.1 ++ [frame.enum.map
          (fun q => if q.1 < gains.length
                    then q.2 + channel_sample * gains.getD q.1 0 * volume
                    else q.2)],
       p.2 + channels))
    ([], i)).1

/-- Mixing a whole sound onto the buffer (output.rs lines 456-496): one pass
of `dbap_speakers` / gains / `mixChannel` per sound channel point. -/
def mixSound (ctx : SoundCtx) (s : Sound) (unmixed : List ℚ)
    (frames : List (List ℚ)) : List (List ℚ) :=
  (s.channel_points.enum).foldl
    (fun fr q =>
      let dbap_speakers := dbapSpeakersFor ctx.speakers ctx.bufChannels s.installations q.2
      let gains := dbapSpeakerGains dbap_speakers ctx.dbap_rolloff_db
      mixChannel unmixed gains s.volume q.1 s.channels fr)
    frames

/-- The GUI `Update` message emitted for every sound at the top of the loop
(output.rs lines 381-393). -/
def soundUpdateMsg (id : ℕ) (a : ActiveSound) : AudioMonitorMessage :=
  .activeSound id (.update a.sound.source_id a.sound.position a.sound.channels
    a.normalised_progress)

/-- The per-sound state update of the loop body (output.rs lines 379-497),
restricted to the sound's own entry: paused sounds are untouched; muted /
soloed-out sounds have their signal advanced by `num_samples` with detectors
untouched; rendered sounds are seeked (continuous WAV only), pulled from, and
their channel detectors fed with the yielded samples. -/
def soundProcessed (ctx : SoundCtx) (e : ℕ × ActiveSound) : ℕ × ActiveSound :=
  let a := e.2
  let s := a.sound
  if !s.playing then e
  else
    let num_samples := ctx.bufFrames * s.channels
    if soundSkipsSilent ctx.soloed s then
      (e.1, { a with sound := { s with signal := advanceSignal num_samples s.signal } })
    else
      let sig := seekSignal ctx.frame_count s.signal
      let taken := sig.remaining.take num_samples
      (e.1, { a with
                sound := { s with signal := advanceSignal num_samples sig }
                channel_detectors := feedDetectors s.channels a.channel_detectors taken })

/-- The ids this loop iteration pushes onto `exhausted_sounds` (output.rs
lines 412-415 and 439-445): the sound's own id exactly when fewer samples were
yielded than requested. -/
def soundExhaustedIds (ctx : SoundCtx) (e : ℕ × ActiveSound) : List ℕ :=
  let s := e.2.sound
  if !s.playing then []
  else
    let num_samples := ctx.bufFrames * s.channels
    if soundSkipsSilent ctx.soloed s then
      if min s.signal.remaining.length num_samples < num_samples then [e.1] else []
    else
      if ((seekSignal ctx.frame_count s.signal).remaining.take num_samples).length
           < num_samples then [e.1] else []

/-- The GUI messages this loop iteration attempts (output.rs lines 381-393 and
447-453): the `Update` always, then — only on the rendered path — one
`UpdateChannel` per channel detector with its current rms/peak. -/
def soundGuiMsgs (ctx : SoundCtx) (e : ℕ × ActiveSound) : List AudioMonitorMessage :=
  let a := e.2
  let s := a.sound
  soundUpdateMsg e.1 a ::
    (if !s.playing then []
     else if soundSkipsSilent ctx.soloed s then []
     else
       let num_samples := ctx.bufFrames * s.channels
       let sig := seekSignal ctx.frame_count s.signal
       let dets := feedDetectors s.channels a.channel_detectors (sig.remaining.take num_samples)
       dets.enum.map (fun q =>
         .activeSound e.1 (.updateChannel q.1 q.2.current.1 q.2.current.2)))

/-- The buffer-frame update of one loop iteration: only the rendered path
mixes anything (output.rs lines 456-496). -/
def soundFramesUpd (ctx : SoundCtx) (e : ℕ × ActiveSound)
    (frames : List (List ℚ)) : List (List ℚ) :=
  let s := e.2.sound
  if !s.playing then frames
  else if soundSkipsSilent ctx.soloed s then frames
  else
    let num_samples := ctx.bufFrames * s.channels
    let sig := seekSignal ctx.frame_count s.signal
    mixSound ctx s (unmixedOf num_samples sig) frames

/-- The `unmixed_samples` scratch update of one loop iteration: the rendered
path clears and refills it (output.rs lines 429-445), the others leave it. -/
def soundUnmixedUpd (ctx : SoundCtx) (e : ℕ × ActiveSound) (u : List ℚ) : List ℚ :=
  let s := e.2.sound
  if !s.playing then u
  else if soundSkipsSilent ctx.soloed s then u
  else unmixedOf (ctx.bufFrames * s.channels) (seekSignal ctx.frame_count s.signal)

/-- The state threaded through the per-sound loop of `render`. -/
structure SoundsPhase where
  frames : List (List ℚ)
  processed : List (ℕ × ActiveSound)
  exhausted : List ℕ
  unmixed : List ℚ
  gui : List AudioMonitorMessage

/-- One iteration of the per-sound loop (output.rs lines 379-497), assembled
from the per-component functions above (each component of the loop body's
effect touches an independent part of the state). -/
def stepSound (ctx : SoundCtx) (st : SoundsPhase) (e : ℕ × ActiveSound) : SoundsPhase :=
  { frames := soundFramesUpd ctx e st.frames
    processed := st.processed ++ [soundProcessed ctx e]
    exhausted := st.exhausted ++ soundExhaustedIds ctx e
    unmixed := soundUnmixedUpd ctx e st.unmixed
    gui := st.gui ++ soundGuiMsgs ctx e }

/-- The whole per-sound loop. -/
def soundsPhase (ctx : SoundCtx) (sounds : List (ℕ × ActiveSound))
    (st : SoundsPhase) : SoundsPhase :=
  sounds.foldl (stepSound ctx) st

/-- The four shared analysis accumulators of the speaker loop (output.rs lines
501-504).  They are declared outside both the speaker loop and the
installation loop, so they accumulate across every speaker of every
installation. -/
structure AnalysisSums where
  sum_peak : ℚ
  sum_rms : ℚ
  sum_lmh : List ℚ
  sum_fft_8_band : List ℚ
deriving DecidableEq

/-- `sum_peak = 0.0`, `sum_rms = 0.0`, `sum_lmh = [0.0; 3]`,
`sum_fft_8_band = [0.0; 8]` (output.rs lines 501-504). -/
def AnalysisSums.zero : AnalysisSums :=
  { sum_peak := 0, sum_rms := 0, sum_lmh := [0, 0, 0]
    sum_fft_8_band := [0, 0, 0, 0, 0, 0, 0, 0] }

/-- The samples the speaker's detectors are fed for one buffer: each frame's
sample on the speaker's channel (output.rs lines 515-519). -/
def speakerSamples (frames : List (List ℚ)) (ch : ℕ) : List ℚ :=
  frames.map (fun f => f.getD ch 0)

/-- The per-speaker entry update (output.rs lines 505-519): a speaker whose
channel is outside the device channel count is skipped; otherwise its envelope
and FFT detectors are fed every frame's sample on its channel. -/
def speakerProcessed (frames : List (List ℚ)) (nch : ℕ) (e : ℕ × ActiveSpeaker) :
    ℕ × ActiveSpeaker :=
  let ch := e.2.speaker.channel
  if nch ≤ ch then e
  else
    let samples := speakerSamples frames ch
    (e.1, { e.2 with
              env_detector := samples.foldl EnvDetector.next e.2.env_detector
              fft_detector := samples.foldl FftDetector.push e.2.fft_detector })

/-- The GUI message one speaker-loop iteration attempts (output.rs lines
528-531). -/
def speakerGuiMsgs (frames : List (List ℚ)) (nch : ℕ) (e : ℕ × ActiveSpeaker) :
    List AudioMonitorMessage :=
  let ch := e.2.speaker.channel
  if nch ≤ ch then []
  else
    let env := (speakerSamples frames ch).foldl EnvDetector.next e.2.env_detector
    [.speaker e.1 (.update env.current.1 env.current.2)]

/-- Half the FFT window length as the normaliser `(FFT_WINDOW_LEN / 2) as f32`
(output.rs lines 542 and 545). -/
def halfWindowF : ℚ := ((FFT_WINDOW_LEN / 2 : ℕ) : ℚ)

/-- The installation loop of one speaker-loop iteration (output.rs lines
533-553): for every installation the speaker belongs to that has an analysis
entry, the *shared* sums are bumped by this speaker's peak/rms and normalised
square-rooted band magnitudes, and a `SpeakerAnalysis` for this speaker is
pushed onto that installation's entry. -/
def speakerAccum (frames : List (List ℚ)) (nch : ℕ) (e : ℕ × ActiveSpeaker)
    (acc : List (Installation × List SpeakerAnalysis) × AnalysisSums) :
    List (Installation × List SpeakerAnalysis) × AnalysisSums :=
  let ch := e.2.speaker.channel
  if nch ≤ ch then acc
  else
    let env := (speakerSamples frames ch).foldl EnvDetector.next e.2.env_detector
    let fftd := (speakerSamples frames ch).foldl FftDetector.push e.2.fft_detector
    let rms := env.current.1
    let peak := env.current.2
    let amps2 := fftd.calcFft
    let lmh3 := fftLmh amps2
    let bins8 := fftMelBins amps2
    e.2.speaker.installations.foldl
      (fun ac inst =>
        match lookupK ac.1 inst with
        | none => ac
        | some _ =>
            (ac.1.map (fun p =>
               if p.1 = inst then (p.1, p.2 ++ [{ rms, peak, index := ch }]) else p),
             { sum_peak := ac.2.sum_peak + peak
               sum_rms := ac.2.sum_rms + rms
               sum_lmh := ac.2.sum_lmh.zipWith
                 (fun s a2 => s + ratSqrt a2 / halfWindowF) [lmh3.1, lmh3.2.1, lmh3.2.2]
               sum_fft_8_band := ac.2.sum_fft_8_band.zipWith
                 (fun s a2 => s + ratSqrt a2 / halfWindowF) bins8 }))
      acc

/-- The state threaded through the per-speaker loop of `render`. -/
structure SpeakerPhase where
  speakers : List (ℕ × ActiveSpeaker)
  analyses : List (Installation × List SpeakerAnalysis)
  sums : AnalysisSums
  gui : List AudioMonitorMessage

/-- One iteration of the per-speaker loop (output.rs lines 505-554). -/
def stepSpeaker (frames : List (List ℚ)) (nch : ℕ) (st : SpeakerPhase)
    (e : ℕ × ActiveSpeaker) : SpeakerPhase :=
  let as2 := speakerAccum frames nch e (st.analyses, st.sums)
  { speakers := st.speakers ++ [speakerProcessed frames nch e]
    analyses := as2.1
    sums := as2.2
    gui := st.gui ++ speakerGuiMsgs frames nch e }

/-- Stable insertion into a list sorted by `index` (for
`speakers.sort_by(|a, b| a.index.cmp(&b.index))`, output.rs line 561). -/
def insertByIndex (a : SpeakerAnalysis) : List SpeakerAnalysis → List SpeakerAnalysis
  | [] => [a]
  | b :: t => if a.index ≤ b.index then a :: b :: t else b :: insertByIndex a t

/-- Stable sort by channel index. -/
def sortByIndex (l : List SpeakerAnalysis) : List SpeakerAnalysis :=
  l.foldr insertByIndex []

/-- The OSC message one installation entry produces (output.rs lines 557-589):
nothing for an empty entry; otherwise the entry is sorted by channel index and
one aggregated message is built whose averages divide the *shared* sums by
this installation's own speaker count. -/
def oscMsgsOf (sums : AnalysisSums) (entry : Installation × List SpeakerAnalysis) :
    List OscOutputMessage :=
  if entry.2.isEmpty then []
  else
    let sorted := sortByIndex entry.2
    let len_f : ℚ := (sorted.length : ℚ)
    [.audio entry.1
      { avg_peak := sums.sum_peak / len_f
        avg_rms := sums.sum_rms / len_f
        avg_fft := { lmh := sums.sum_lmh.map (fun s => s / len_f)
                     bins := sums.sum_fft_8_band.map (fun s => s / len_f) }
        speakers := sorted.map (fun a => { rms := a.rms, peak := a.peak }) }]

/-- The OSC-output pass (output.rs lines 556-589): non-empty entries are
drained into messages; every entry ends the pass empty. -/
def oscPhase (sums : AnalysisSums)
    (analyses : List (Installation × List SpeakerAnalysis)) :
    List (Installation × List SpeakerAnalysis) × List OscOutputMessage :=
  (analyses.map (fun p => (p.1, ([] : List SpeakerAnalysis))),
   (analyses.map (oscMsgsOf sums)).flatten)

/-- The state threaded through the exhausted-sound removal loop. -/
structure RemovalState where
  sounds : List (ℕ × ActiveSound)
  gui : List AudioMonitorMessage
  soundscape : List SoundscapeMessage
  panicked : Bool

/-- One iteration of the removal loop (output.rs lines 592-607):
`sounds.remove(&sound_id).unwrap()` — an absent id is the `unwrap` panic,
recorded in the `panicked` flag; otherwise the sound is removed and one `End`
GUI message plus one soundscape removal closure are attempted. -/
def removeStep (st : RemovalState) (id : ℕ) : RemovalState :=
  match lookupK st.sounds id with
  | none => { st with panicked := true }
  | some a =>
      { sounds := eraseKey st.sounds id
        gui := st.gui ++ [.activeSound id (.End a)]
        soundscape := st.soundscape ++ [.removeActiveSound id]
        panicked := st.panicked }

/-- The whole removal loop, draining `exhausted_sounds`. -/
def removalPhase (sounds : List (ℕ × ActiveSound)) (exhausted : List ℕ) : RemovalState :=
  exhausted.foldl removeStep { sounds, gui := [], soundscape := [], panicked := false }

/-- Everything one `render` invocation produces: the returned model and
buffer, the attempted GUI / OSC / soundscape messages, and whether the
removal loop's `unwrap` panicked. -/
structure RenderResult where
  model : Model
  buffer : Buffer
  gui : List AudioMonitorMessage
  osc : List OscOutputMessage
  soundscape : List SoundscapeMessage
  panicked : Bool
deriving DecidableEq

/-- `buffer.iter().fold(0.0, |peak, &s| s.max(peak))` (output.rs line 615). -/
def masterPeak (b : Buffer) : ℚ :=
  (b.frames.flatten).foldl (fun peak s => max s peak) 0

/-- The per-invocation context built from the model and buffer. -/
def renderCtx (m : Model) (b : Buffer) : SoundCtx :=
  { soloed := m.soloed
    frame_count := m.frame_count
    dbap_rolloff_db := m.dbap_rolloff_db
    speakers := m.speakers
    bufChannels := b.channels
    bufFrames := b.frames.length }

/-- The per-sound loop of `render` on this model and buffer, starting from the
silenced buffer and the model's scratch state. -/
def renderSoundsPhase (m : Model) (b : Buffer) : SoundsPhase :=
  soundsPhase (renderCtx m b) m.sounds
    { frames := b.frames.map (fun fr => fr.map (fun _ => (0 : ℚ)))
      processed := []
      exhausted := m.exhausted_sounds
      unmixed := m.unmixed_samples
      gui := [] }

/-- The per-speaker loop of `render` on this model and buffer, over the mixed
frames (output.rs lines 499-554). -/
def renderSpeakerPhase (m : Model) (b : Buffer) : SpeakerPhase :=
  m.speakers.foldl (stepSpeaker (renderSoundsPhase m b).frames b.channels)
    { speakers := [], analyses := m.installation_analyses
      sums := AnalysisSums.zero, gui := [] }

/-- The exhausted-sound removal loop of `render` (output.rs lines 591-607). -/
def renderRemoval (m : Model) (b : Buffer) : RemovalState :=
  removalPhase (renderSoundsPhase m b).processed (renderSoundsPhase m b).exhausted

/-- The returned buffer: the mixed frames with master volume applied
(output.rs lines 609-612). -/
def renderOutBuffer (m : Model) (b : Buffer) : Buffer :=
  { channels := b.channels
    frames := (renderSoundsPhase m b).frames.map
      (fun fr => fr.map (fun s => s * m.master_volume)) }

/-- `render` (output.rs lines 350-623): silence the buffer, run the per-sound
mixing loop, the per-speaker analysis loop, the per-installation OSC pass, the
exhausted-sound removal loop, apply master volume, emit the master peak, and
step the (64-bit, wrapping) frame counter. -/
def render (m : Model) (b : Buffer) : RenderResult :=
  { model := { m with
      sounds := (renderRemoval m b).sounds
      speakers := (renderSpeakerPhase m b).speakers
      installation_analyses :=
        (oscPhase (renderSpeakerPhase m b).sums (renderSpeakerPhase m b).analyses).1
      unmixed_samples := (renderSoundsPhase m b).unmixed
      exhausted_sounds := []
      frame_count := (m.frame_count + b.frames.length) % 2 ^ 64 }
    buffer := renderOutBuffer m b
    gui := (renderSoundsPhase m b).gui ++ (renderSpeakerPhase m b).gui
            ++ (renderRemoval m b).gui ++ [.master (masterPeak (renderOutBuffer m b))]
    osc := (oscPhase (renderSpeakerPhase m b).sums (renderSpeakerPhase m b).analyses).2
    soundscape := (renderRemoval m b).soundscape
    panicked := (renderRemoval m b).panicked }

/-- Message classifier: is this the master-level GUI message? -/
def isMaster : AudioMonitorMessage → Bool
  | .master _ => true
  | _ => false

/-- Message classifier: is this an `End` GUI message for the given sound id? -/
def isEndFor (id : ℕ) : AudioMonitorMessage → Bool
  | .activeSound j (.End _) => j == id
  | _ => false

/-- Message classifier: is this a soundscape removal for the given sound id? -/
def isSscRemovalFor (id : ℕ) : SoundscapeMessage → Bool
  | .removeActiveSound j => j == id

/-- The claimed master-level value of C5: the peak *absolute* sample value. -/
def bufferMaxAbs (b : Buffer) : ℚ :=
  (b.frames.flatten).foldl (fun peak s => max |s| peak) 0

/-- The per-entry channel-count invariant of the sound map. -/
def soundsChannelInv (m : Model) : Prop :=
  ∀ e ∈ m.sounds, e.2.channel_detectors.length = e.2.sound.channels

/-- A minimal baseline model state for the concrete scenarios below (the
fields `Model::new` would set, with the analysis map over all installations). -/
def baseModel : Model :=
  { frame_count := 0, master_volume := 1, dbap_rolloff_db := 6, soloed := []
    sounds := [], speakers := [], unmixed_samples := [], exhausted_sounds := []
    installation_analyses := [(.instA, []), (.instB, []), (.instC, [])] }

/-- A one-channel playing sound at the origin with the given signal. -/
def monoSound (samples : List ℚ) : Sound :=
  { source_id := 0, position := ⟨0, 0⟩, channels := 1, volume := 1, muted := false
    playing := true, spread := 1, radians := 0, installations := [.instA]
    signal := { remaining := samples, kind := .normal } }

/-- An active speaker on the given channel with a preloaded envelope-detector
history. -/
def spkAt (installations : List Installation) (channel : ℕ) (hist : List ℚ) : ActiveSpeaker :=
  { speaker := { point := ⟨0, 0⟩, channel, installations }
    env_detector := ⟨hist⟩, fft_detector := ⟨[]⟩ }

/-- C1 scenario: two speakers in *different* installations whose envelope
detectors currently report rms/peak 1/5 (installation A, channel 0) and 2/5
(installation B, channel 1). -/
def mAgg : Model :=
  { baseModel with speakers := [(0, spkAt [.instA] 0 [1 / 5]), (1, spkAt [.instB] 1 [2 / 5])] }

/-- C1 scenario buffer: two device channels, zero frames (so the preloaded
detector states are read unchanged). -/
def bAgg : Buffer := { channels := 2, frames := [] }

/-- C5 scenario: one sound whose only sample is `-1`, one speaker co-located
with it sharing its installation. -/
def mNeg : Model :=
  { baseModel with
      sounds := [(0, ActiveSound.new (monoSound [-1]))]
      speakers := [(0, spkAt [.instA] 0 [])] }

/-- C5 scenario buffer: one device channel, one frame. -/
def bNeg : Buffer := { channels := 1, frames := [[0]] }

/-- C7 scenario: a model holding one single-channel sound. -/
def mDet : Model := { baseModel with sounds := [(0, ActiveSound.new (monoSound []))] }

/-- C2 witness model: a speaker already present at id 7 with detector
history. -/
def mW2 : Model := { baseModel with speakers := [(7, spkAt [.instA] 0 [2])] }

/-- C2 witness replacement speaker value. -/
def spkNewW2 : Speaker := { point := ⟨1, 1⟩, channel := 3, installations := [.instB] }

/-- C3 witness model: one playing one-sample sound at id 5. -/
def mW3 : Model := { baseModel with sounds := [(5, ActiveSound.new (monoSound [1]))] }

/-- C3 witness buffer: one device channel, two frames (requests 2 samples from
the 1-sample signal). -/
def bW3 : Buffer := { channels := 1, frames := [[0], [0]] }

/-- C4 witness active sound: a muted playing sound with three samples left. -/
def aW4 : ActiveSound := ActiveSound.new { monoSound [1, 2, 3] with muted := true }

/-- C4 witness model: the muted sound at id 4. -/
def mW4 : Model := { baseModel with sounds := [(4, aW4)] }

/-- C4 witness buffer: one device channel, one frame. -/
def bW4 : Buffer := { channels := 1, frames := [[0]] }

/-- C6 witness buffer: one device channel, one frame. -/
def bW6 : Buffer := { channels := 1, frames := [[0]] }

/-- C9 witness model: one sound at id 3. -/
def mW9 : Model := { baseModel with sounds := [(3, ActiveSound.new (monoSound [1]))] }

/-- C10 witness signal. -/
def sigW : Signal := { remaining := [1, 2, 3], kind := .normal }

theorem lookupK_eraseKey_self {κ α : Type} [DecidableEq κ] (l : List (κ × α)) (k : κ) :
    lookupK (eraseKey l k) k = none := by
  induction l with
  | nil => rfl
  | cons p t ih =>
      by_cases h : p.1 = k <;> simp [eraseKey, lookupK, h] at ih ⊢ <;>
        simpa [eraseKey] using ih

theorem lookupK_eraseKey_ne {κ α : Type} [DecidableEq κ] (l : List (κ × α)) (k k' : κ)
    (h : ¬ k' = k) : lookupK (eraseKey l k) k' = lookupK l k' := by
  induction l with
  | nil => rfl
  | cons p t ih =>
      by_cases hp : p.1 = k
      · have hp' : ¬ p.1 = k' := fun hc => h (hc ▸ hp)
        rw [show eraseKey (p :: t) k = eraseKey t k from by simp [eraseKey, hp]]
        rw [ih]
        simp [lookupK, hp']
      · rw [show eraseKey (p :: t) k = p :: eraseKey t k from by simp [eraseKey, hp]]
        by_cases hk : p.1 = k'
        · simp [lookupK, hk]
        · simp [lookupK, hk, ih]

theorem lookupK_append {κ α : Type} [DecidableEq κ] (l₁ l₂ : List (κ × α)) (k : κ) :
    lookupK (l₁ ++ l₂) k =
      match lookupK l₁ k with
      | some a => some a
      | none => lookupK l₂ k := by
  induction l₁ with
  | nil => simp [lookupK]
  | cons p t ih => by_cases h : p.1 = k <;> simp [lookupK, h, ih]

theorem lookupK_erase_append_self {κ α : Type} [DecidableEq κ] (l : List (κ × α))
    (k : κ) (x : α) : lookupK (eraseKey l k ++ [(k, x)]) k = some x := by
  rw [lookupK_append, lookupK_eraseKey_self]
  simp [lookupK]

/-- Membership of a key implies a successful lookup. -/
theorem lookupK_isSome_of_mem_keys {κ α : Type} [DecidableEq κ]
    (l : List (κ × α)) (k : κ) (h : k ∈ l.map Prod.fst) : (lookupK l k).isSome := by
  induction l with
  | nil => simp at h
  | cons p t ih =>
      by_cases hp : p.1 = k
      · simp [lookupK, hp]
      · simp [lookupK, hp]
        rcases List.mem_map.mp h with ⟨e, he, hk⟩
        rcases List.mem_cons.mp he with rfl | he'
        · exact absurd hk hp
        · exact ih (List.mem_map.mpr ⟨e, he', hk⟩)

/-- A successful lookup decomposes the list at the first occurrence of the
key. -/
theorem lookupK_decomp {κ α : Type} [DecidableEq κ] (l : List (κ × α)) (k : κ) (a : α)
    (h : lookupK l k = some a) :
    ∃ l₁ l₂, l = l₁ ++ (k, a) :: l₂ ∧ k ∉ l₁.map Prod.fst := by
  induction l with
  | nil => simp [lookupK] at h
  | cons p t ih =>
      by_cases hp : p.1 = k
      · refine ⟨[], t, ?_, by simp⟩
        simp [lookupK, hp] at h
        have : p = (k, a) := Prod.ext hp h
        simp [this]
      · simp [lookupK, hp] at h
        rcases ih h with ⟨l₁, l₂, rfl, hk⟩
        refine ⟨p :: l₁, l₂, by simp, ?_⟩
        simp [hk]
        intro hc; exact hp hc.symm

theorem soundsPhase_processed (ctx : SoundCtx) (l : List (ℕ × ActiveSound))
    (st : SoundsPhase) :
    (soundsPhase ctx l st).processed = st.processed ++ l.map (soundProcessed ctx) := by
  induction l generalizing st with
  | nil => simp [soundsPhase]
  | cons e t ih =>
      show (soundsPhase ctx t (stepSound ctx st e)).processed = _
      rw [ih]
      simp [stepSound]

theorem soundsPhase_exhausted (ctx : SoundCtx) (l : List (ℕ × ActiveSound))
    (st : SoundsPhase) :
    (soundsPhase ctx l st).exhausted =
      st.exhausted ++ (l.map (soundExhaustedIds ctx)).flatten := by
  induction l generalizing st with
  | nil => simp [soundsPhase]
  | cons e t ih =>
      show (soundsPhase ctx t (stepSound ctx st e)).exhausted = _
      rw [ih]
      simp [stepSound]

theorem soundsPhase_gui (ctx : SoundCtx) (l : List (ℕ × ActiveSound))
    (st : SoundsPhase) :
    (soundsPhase ctx l st).gui = st.gui ++ (l.map (soundGuiMsgs ctx)).flatten := by
  induction l generalizing st with
  | nil => simp [soundsPhase]
  | cons e t ih =>
      show (soundsPhase ctx t (stepSound ctx st e)).gui = _
      rw [ih]
      simp [stepSound]

theorem soundsPhase_frames (ctx : SoundCtx) (l : List (ℕ × ActiveSound))
    (st : SoundsPhase) :
    (soundsPhase ctx l st).frames =
      l.foldl (fun fr e => soundFramesUpd ctx e fr) st.frames := by
  induction l generalizing st with
  | nil => simp [soundsPhase]
  | cons e t ih =>
      show (soundsPhase ctx t (stepSound ctx st e)).frames = _
      rw [ih]
      simp [stepSound]

theorem soundProcessed_fst (ctx : SoundCtx) (e : ℕ × ActiveSound) :
    (soundProcessed ctx e).1 = e.1 := by
  by_cases h1 : (!e.2.sound.playing) = true
  · simp [soundProcessed, h1]
  · by_cases h2 : soundSkipsSilent ctx.soloed e.2.sound = true
    · simp [soundProcessed, h1, h2]
    · simp [soundProcessed, h1, h2]

theorem soundExhaustedIds_cases (ctx : SoundCtx) (e : ℕ × ActiveSound) :
    soundExhaustedIds ctx e = [] ∨ soundExhaustedIds ctx e = [e.1] := by
  by_cases h1 : (!e.2.sound.playing) = true
  · left; simp [soundExhaustedIds, h1]
  · by_cases h2 : soundSkipsSilent ctx.soloed e.2.sound = true
    · by_cases h3 : min e.2.sound.signal.remaining.length (ctx.bufFrames * e.2.sound.channels)
          < ctx.bufFrames * e.2.sound.channels
      · right; simp [soundExhaustedIds, h1, h2, h3]
      · left; simp [soundExhaustedIds, h1, h2, h3]
    · by_cases h3 : min (ctx.bufFrames * e.2.sound.channels)
          (seekSignal ctx.frame_count e.2.sound.signal).remaining.length
          < ctx.bufFrames * e.2.sound.channels
      · right; simp [soundExhaustedIds, h1, h2, List.length_take, h3]
      · left; simp [soundExhaustedIds, h1, h2, List.length_take, h3]

theorem mem_soundExhaustedIds (ctx : SoundCtx) (e : ℕ × ActiveSound) (j : ℕ)
    (h : j ∈ soundExhaustedIds ctx e) : j = e.1 := by
  rcases soundExhaustedIds_cases ctx e with hc | hc <;> rw [hc] at h <;> simp at h
  exact h

/-- Lookup through a key-preserving entry-wise map. -/
theorem lookupK_map_keyfix {κ α : Type} [DecidableEq κ] (f : κ × α → κ × α)
    (hf : ∀ e, (f e).1 = e.1) (l : List (κ × α)) (k : κ) :
    lookupK (l.map f) k = (lookupK l k).map (fun a => (f (k, a)).2) := by
  induction l with
  | nil => rfl
  | cons p t ih =>
      by_cases hp : p.1 = k
      · have hpk : p = (k, p.2) := Prod.ext hp rfl
        simp only [List.map_cons, lookupK, hf p, hp, if_true]
        rw [show f p = f (k, p.2) from by rw [← hpk]]
        simp
      · simp only [List.map_cons, lookupK, hf p, hp, if_false, ih]

theorem removeStep_none (st : RemovalState) (id : ℕ)
    (h : lookupK st.sounds id = none) :
    removeStep st id = { st with panicked := true } := by
  simp [removeStep, h]

theorem removeStep_some (st : RemovalState) (id : ℕ) (a : ActiveSound)
    (h : lookupK st.sounds id = some a) :
    removeStep st id =
      { sounds := eraseKey st.sounds id
        gui := st.gui ++ [.activeSound id (.End a)]
        soundscape := st.soundscape ++ [.removeActiveSound id]
        panicked := st.panicked } := by
  simp [removeStep, h]

theorem removeStep_lookup_ne (st : RemovalState) (j id : ℕ) (h : ¬ id = j) :
    lookupK (removeStep st j).sounds id = lookupK st.sounds id := by
  cases hl : lookupK st.sounds j with
  | none => rw [removeStep_none st j hl]
  | some a => rw [removeStep_some st j a hl]; exact lookupK_eraseKey_ne _ _ _ h

theorem removeFold_lookup_not_mem (ids : List ℕ) (st : RemovalState) (id : ℕ)
    (h : id ∉ ids) :
    lookupK (ids.foldl removeStep st).sounds id = lookupK st.sounds id := by
  induction ids generalizing st with
  | nil => rfl
  | cons j t ih =>
      have hne : ¬ id = j := fun hc => h (by simp [hc])
      have ht : id ∉ t := fun hc => h (by simp [hc])
      show lookupK (t.foldl removeStep (removeStep st j)).sounds id = _
      rw [ih _ ht, removeStep_lookup_ne st j id hne]

theorem removeStep_countEnd_ne (st : RemovalState) (j id : ℕ) (h : ¬ id = j) :
    (removeStep st j).gui.countP (isEndFor id) = st.gui.countP (isEndFor id) := by
  cases hl : lookupK st.sounds j with
  | none => rw [removeStep_none st j hl]
  | some a =>
      rw [removeStep_some st j a hl]
      simp [List.countP_append, isEndFor, List.countP_cons]
      intro hc
      exact absurd hc.symm h

theorem removeStep_countSsc_ne (st : RemovalState) (j id : ℕ) (h : ¬ id = j) :
    (removeStep st j).soundscape.countP (isSscRemovalFor id) =
      st.soundscape.countP (isSscRemovalFor id) := by
  cases hl : lookupK st.sounds j with
  | none => rw [removeStep_none st j hl]
  | some a =>
      rw [removeStep_some st j a hl]
      simp [List.countP_append, isSscRemovalFor, List.countP_cons]
      intro hc
      exact absurd hc.symm h

theorem removeFold_countEnd_not_mem (ids : List ℕ) (st : RemovalState) (id : ℕ)
    (h : id ∉ ids) :
    (ids.foldl removeStep st).gui.countP (isEndFor id) = st.gui.countP (isEndFor id) := by
  induction ids generalizing st with
  | nil => rfl
  | cons j t ih =>
      have hne : ¬ id = j := fun hc => h (by simp [hc])
      have ht : id ∉ t := fun hc => h (by simp [hc])
      show (t.foldl removeStep (removeStep st j)).gui.countP (isEndFor id) = _
      rw [ih _ ht, removeStep_countEnd_ne st j id hne]

theorem removeFold_countSsc_not_mem (ids : List ℕ) (st : RemovalState) (id : ℕ)
    (h : id ∉ ids) :
    (ids.foldl removeStep st).soundscape.countP (isSscRemovalFor id) =
      st.soundscape.countP (isSscRemovalFor id) := by
  induction ids generalizing st with
  | nil => rfl
  | cons j t ih =>
      have hne : ¬ id = j := fun hc => h (by simp [hc])
      have ht : id ∉ t := fun hc => h (by simp [hc])
      show (t.foldl removeStep (removeStep st j)).soundscape.countP (isSscRemovalFor id) = _
      rw [ih _ ht, removeStep_countSsc_ne st j id hne]

theorem removeFold_mem (ids : List ℕ) (st : RemovalState) (id : ℕ) (a : ActiveSound)
    (hnd : ids.Nodup) (hmem : id ∈ ids) (hpres : lookupK st.sounds id = some a) :
    lookupK (ids.foldl removeStep st).sounds id = none
    ∧ (ids.foldl removeStep st).gui.countP (isEndFor id) =
        st.gui.countP (isEndFor id) + 1
    ∧ (ids.foldl removeStep st).soundscape.countP (isSscRemovalFor id) =
        st.soundscape.countP (isSscRemovalFor id) + 1 := by
  induction ids generalizing st a with
  | nil => simp at hmem
  | cons j t ih =>
      rcases List.mem_cons.mp hmem with rfl | hmt
      · have hnt : id ∉ t := (List.nodup_cons.mp hnd).1
        have hstep := removeStep_some st id a hpres
        rw [List.foldl_cons]
        rw [removeFold_lookup_not_mem t _ id hnt,
            removeFold_countEnd_not_mem t _ id hnt,
            removeFold_countSsc_not_mem t _ id hnt, hstep]
        refine ⟨lookupK_eraseKey_self _ _, ?_, ?_⟩
        · simp [List.countP_append, List.countP_cons, isEndFor]
        · simp [List.countP_append, List.countP_cons, isSscRemovalFor]
      · have hne : ¬ id = j := by
          intro hc
          exact (List.nodup_cons.mp hnd).1 (hc ▸ hmt)
        have hpres' : lookupK (removeStep st j).sounds id = some a := by
          rw [removeStep_lookup_ne st j id hne]; exact hpres
        have := ih (removeStep st j) a (List.nodup_cons.mp hnd).2 hmt hpres'
        rw [List.foldl_cons]
        rw [this.2.1, this.2.2, removeStep_countEnd_ne st j id hne,
            removeStep_countSsc_ne st j id hne]
        exact ⟨this.1, rfl, rfl⟩

theorem removeFold_no_panic (ids : List ℕ) (st : RemovalState)
    (hnd : ids.Nodup) (hsub : ∀ j ∈ ids, (lookupK st.sounds j).isSome)
    (hp : st.panicked = false) :
    (ids.foldl removeStep st).panicked = false := by
  induction ids generalizing st with
  | nil => exact hp
  | cons j t ih =>
      have hj := hsub j (by simp)
      cases hl : lookupK st.sounds j with
      | none => rw [hl] at hj; simp at hj
      | some a =>
          show (t.foldl removeStep (removeStep st j)).panicked = false
          refine ih (removeStep st j) (List.nodup_cons.mp hnd).2 ?_ ?_
          · intro k hk
            have hkj : ¬ k = j := by
              intro hc
              exact (List.nodup_cons.mp hnd).1 (hc ▸ hk)
            rw [removeStep_lookup_ne st j k hkj]
            exact hsub k (by simp [hk])
          · rw [removeStep_some st j a hl]
            exact hp

theorem soundGuiMsgs_shape (ctx : SoundCtx) (e : ℕ × ActiveSound)
    (msg : AudioMonitorMessage) (hm : msg ∈ soundGuiMsgs ctx e) :
    (∀ id, isEndFor id msg = false) ∧ isMaster msg = false := by
  unfold soundGuiMsgs at hm
  rcases List.mem_cons.mp hm with rfl | hm'
  · exact ⟨fun id => rfl, rfl⟩
  · by_cases h1 : (!e.2.sound.playing) = true
    · simp [h1] at hm'
    · by_cases h2 : soundSkipsSilent ctx.soloed e.2.sound = true
      · simp [h1, h2] at hm'
      · simp [h1, h2] at hm'
        rcases hm' with ⟨i, d, hq, rfl⟩
        exact ⟨fun id => rfl, rfl⟩

theorem speakerGuiMsgs_shape (frames : List (List ℚ)) (nch : ℕ)
    (e : ℕ × ActiveSpeaker) (msg : AudioMonitorMessage)
    (hm : msg ∈ speakerGuiMsgs frames nch e) :
    (∀ id, isEndFor id msg = false) ∧ isMaster msg = false := by
  unfold speakerGuiMsgs at hm
  by_cases h : nch ≤ e.2.speaker.channel
  · simp [h] at hm
  · simp [h] at hm
    subst hm
    exact ⟨fun id => rfl, rfl⟩

theorem removeStep_gui_not_master (st : RemovalState) (j : ℕ)
    (h : ∀ msg ∈ st.gui, isMaster msg = false) :
    ∀ msg ∈ (removeStep st j).gui, isMaster msg = false := by
  intro msg hm
  cases hl : lookupK st.sounds j with
  | none => rw [removeStep_none st j hl] at hm; exact h msg hm
  | some a =>
      rw [removeStep_some st j a hl] at hm
      simp at hm
      rcases hm with hm | rfl
      · exact h msg hm
      · rfl

theorem removeFold_gui_not_master (ids : List ℕ) (st : RemovalState)
    (h : ∀ msg ∈ st.gui, isMaster msg = false) :
    ∀ msg ∈ (ids.foldl removeStep st).gui, isMaster msg = false := by
  induction ids generalizing st with
  | nil => exact h
  | cons j t ih =>
      rw [List.foldl_cons]
      exact ih _ (removeStep_gui_not_master st j h)

theorem speakerFold_gui (frames : List (List ℚ)) (nch : ℕ)
    (l : List (ℕ × ActiveSpeaker)) (st : SpeakerPhase) :
    (l.foldl (stepSpeaker frames nch) st).gui =
      st.gui ++ (l.map (speakerGuiMsgs frames nch)).flatten := by
  induction l generalizing st with
  | nil => simp
  | cons e t ih =>
      rw [List.foldl_cons, ih]
      simp [stepSpeaker]

unseal Rat.add Rat.mul Rat.sub Rat.inv Rat.ofScientific

/-- C8: for every sound position, spread and base rotation, `channel_point`
for a single-channel sound (`channel_index = 0`, `total_channels = 1`) returns
exactly the sound's position, with no spread or rotation offset (the
assertion `channel_index < total_channels` passes). -/
theorem c8_single_channel_point (pos : Point2Q) (spread radians : ℚ) :
    channel_point pos 0 1 spread radians = some pos := by
  simp [channel_point, channelPointCore]

/-- C1: the code contradicts the claim.  Two speakers in *different*
installations report rms/peak 1/5 (installation A) and 2/5 (installation B);
because the analysis sums accumulate across the whole speaker loop (output.rs
lines 501-504 and 539-546), installation A's emitted message carries
`avg_rms = avg_peak = 3/5` — the total over both installations divided by A's
own single contributing speaker — instead of the 1/5 average over A's own
speakers demanded by the claim. -/
theorem c1_installation_aggregation_bug :
    (render mAgg bAgg).osc =
      [.audio .instA
        { avg_peak := 3 / 5, avg_rms := 3 / 5
          avg_fft := { lmh := [0, 0, 0], bins := [0, 0, 0, 0, 0, 0, 0, 0] }
          speakers := [{ rms := 1 / 5, peak := 1 / 5 }] },
       .audio .instB
        { avg_peak := 3 / 5, avg_rms := 3 / 5
          avg_fft := { lmh := [0, 0, 0], bins := [0, 0, 0, 0, 0, 0, 0, 0] }
          speakers := [{ rms := 2 / 5, peak := 2 / 5 }] }]
    ∧ ¬ ((3 : ℚ) / 5 = 1 / 5) := by
  exact ⟨by decide, by decide⟩

/-- C5, counterexample: the emitted master-level value is *not* the peak
absolute sample value.  With a single `-1` sample mixed at gain 1, the final
buffer is `[[-1]]`, whose peak absolute value is 1, yet the fold
`s.max(peak)` over an initial `0.0` (output.rs line 615) never takes the
absolute value and reports 0. -/
theorem c5_master_peak_counterexample :
    (render mNeg bNeg).gui.filter isMaster = [.master 0]
    ∧ bufferMaxAbs (render mNeg bNeg).buffer = 1
    ∧ ¬ ((render mNeg bNeg).gui.filter isMaster
          = [.master (bufferMaxAbs (render mNeg bNeg).buffer)]) := by
  exact ⟨by decide, by decide, by decide⟩

/-- C5, amended: on every render invocation, after master volume has been
applied, exactly one master-level GUI message is attempted, and its value is
the fold of `max` over the output buffer's samples starting from 0 (the peak
*non-negative* sample value; negative samples do not contribute their
magnitude). -/
theorem c5_master_peak_amended (m : Model) (b : Buffer) :
    (render m b).gui.filter isMaster = [.master (masterPeak (render m b).buffer)] := by
  have hsp : ∀ msg ∈ (renderSoundsPhase m b).gui, ¬ isMaster msg = true := by
    intro msg hm
    rw [renderSoundsPhase, soundsPhase_gui] at hm
    rcases List.mem_append.mp hm with h0 | h1
    · simp at h0
    · rcases List.mem_flatten.mp h1 with ⟨ms, hms, hmem⟩
      rcases List.mem_map.mp hms with ⟨e, he, rfl⟩
      simp [(soundGuiMsgs_shape _ _ _ hmem).2]
  have hspk : ∀ msg ∈ (renderSpeakerPhase m b).gui, ¬ isMaster msg = true := by
    intro msg hm
    rw [renderSpeakerPhase, speakerFold_gui] at hm
    rcases List.mem_append.mp hm with h0 | h1
    · simp at h0
    · rcases List.mem_flatten.mp h1 with ⟨ms, hms, hmem⟩
      rcases List.mem_map.mp hms with ⟨e, he, rfl⟩
      simp [(speakerGuiMsgs_shape _ _ _ _ hmem).2]
  have hrem : ∀ msg ∈ (renderRemoval m b).gui, ¬ isMaster msg = true := by
    intro msg hm
    have hbase : ∀ mm ∈ ([] : List AudioMonitorMessage), isMaster mm = false := by
      intro mm hmm; simp at hmm
    have := removeFold_gui_not_master (renderSoundsPhase m b).exhausted
      ({ sounds := (renderSoundsPhase m b).processed, gui := [], soundscape := []
         panicked := false } : RemovalState) hbase msg hm
    simp [this]
  show ((renderSoundsPhase m b).gui ++ (renderSpeakerPhase m b).gui
        ++ (renderRemoval m b).gui ++ [AudioMonitorMessage.master (masterPeak (renderOutBuffer m b))]).filter
          isMaster = _
  rw [List.filter_append, List.filter_append, List.filter_append,
      List.filter_eq_nil_iff.mpr hsp, List.filter_eq_nil_iff.mpr hspk,
      List.filter_eq_nil_iff.mpr hrem]
  rfl

/-- C6: every render invocation advances the frame counter by exactly the
number of frames in the buffer (wrapping only at the 64-bit boundary); with at
least one frame and no wrap it strictly increases; and no model lifecycle
operation touches it. -/
theorem c6_frame_counter (m : Model) (b : Buffer) (id : ℕ) (f : Sound → Sound)
    (a : ActiveSound) (spk : Speaker) :
    (render m b).model.frame_count = (m.frame_count + b.frames.length) % 2 ^ 64
    ∧ (m.frame_count + b.frames.length < 2 ^ 64 → 1 ≤ b.frames.length →
        m.frame_count < (render m b).model.frame_count)
    ∧ (m.insert_speaker id spk).model.frame_count = m.frame_count
    ∧ (m.insert_sound id a).model.frame_count = m.frame_count
    ∧ (m.remove_sound id).model.frame_count = m.frame_count
    ∧ (m.update_sound id f).2.frame_count = m.frame_count := by
  refine ⟨rfl, ?_, rfl, rfl, ?_, ?_⟩
  · intro h1 h2
    have : (render m b).model.frame_count = (m.frame_count + b.frames.length) % 2 ^ 64 := rfl
    rw [this, Nat.mod_eq_of_lt h1]
    omega
  · cases hl : lookupK m.sounds id <;> simp [Model.remove_sound, hl]
  · cases hl : lookupK m.sounds id <;> simp [Model.update_sound, hl]

/-- C6 witness: on the baseline model and a one-frame buffer the counter
strictly increases. -/
theorem c6_frame_counter_witness :
    baseModel.frame_count + bW6.frames.length < 2 ^ 64
    ∧ 1 ≤ bW6.frames.length
    ∧ baseModel.frame_count < (render baseModel bW6).model.frame_count := by
  refine ⟨by decide, by decide, ?_⟩
  exact (c6_frame_counter baseModel bW6 0 (fun s => s) (ActiveSound.new (monoSound []))
    spkNewW2).2.1 (by decide) (by decide)

/-- C9: `remove_sound` on an absent id returns `false` with no side effects
(model unchanged, no messages attempted); on a present id it removes the
sound, returns `true`, attempts one `End` GUI message and one soundscape
removal, and a second removal of the same id returns `false`. -/
theorem c9_remove_sound (m : Model) (id : ℕ) :
    (lookupK m.sounds id = none →
      (m.remove_sound id).removed = false
      ∧ (m.remove_sound id).model = m
      ∧ (m.remove_sound id).gui = []
      ∧ (m.remove_sound id).soundscape = [])
    ∧ (∀ a, lookupK m.sounds id = some a →
      (m.remove_sound id).removed = true
      ∧ lookupK (m.remove_sound id).model.sounds id = none
      ∧ (m.remove_sound id).model.speakers = m.speakers
      ∧ (m.remove_sound id).gui = [.activeSound id (.End a)]
      ∧ (m.remove_sound id).soundscape = [.removeActiveSound id]
      ∧ ((m.remove_sound id).model.remove_sound id).removed = false) := by
  constructor
  · intro h
    simp [Model.remove_sound, h]
  · intro a h
    have h2 : lookupK (eraseKey m.sounds id) id = none := lookupK_eraseKey_self _ _
    simp [Model.remove_sound, h, h2]

/-- C9 witness: both branches exercised on a concrete model. -/
theorem c9_remove_sound_witness :
    ((mW9.remove_sound 3).removed = true
      ∧ lookupK (mW9.remove_sound 3).model.sounds 3 = none
      ∧ (mW9.remove_sound 3).model.speakers = mW9.speakers
      ∧ (mW9.remove_sound 3).gui = [.activeSound 3 (.End (ActiveSound.new (monoSound [1])))]
      ∧ (mW9.remove_sound 3).soundscape = [.removeActiveSound 3]
      ∧ ((mW9.remove_sound 3).model.remove_sound 3).removed = false)
    ∧ ((baseModel.remove_sound 3).removed = false
      ∧ (baseModel.remove_sound 3).model = baseModel
      ∧ (baseModel.remove_sound 3).gui = []
      ∧ (baseModel.remove_sound 3).soundscape = []) :=
  ⟨(c9_remove_sound mW9 3).2 (ActiveSound.new (monoSound [1])) (by decide),
   (c9_remove_sound baseModel 3).1 (by decide)⟩

/-- C10: after the pull-and-pad phase the unmixed buffer holds exactly
`num_samples = buffer_frames * channels` samples, and every index
`i + frame_index * channels` the mixing loop reads (with `i < channels` and
`frame_index < buffer_frames`) is within bounds. -/
theorem c10_unmixed_in_bounds (sig : Signal) (bufFrames channels i f : ℕ)
    (hi : i < channels) (hf : f < bufFrames) :
    (unmixedOf (bufFrames * channels) sig).length = bufFrames * channels
    ∧ i + f * channels < bufFrames * channels := by
  constructor
  · simp [unmixedOf, List.length_take]
  · have h1 : i + f * channels < (f + 1) * channels := by
      rw [Nat.succ_mul]
      omega
    exact lt_of_lt_of_le h1 (Nat.mul_le_mul_right channels (Nat.succ_le_of_lt hf))

/-- C10 witness: a concrete signal, two frames and two channels. -/
theorem c10_unmixed_in_bounds_witness :
    (unmixedOf (2 * 2) sigW).length = 2 * 2 ∧ 1 + 1 * 2 < 2 * 2 :=
  c10_unmixed_in_bounds sigW 2 2 1 1 (by decide) (by decide)

/-- C7, counterexample: the invariant
`channel_detectors.len() == sound.channels` is *not* preserved by arbitrary
in-place mutators — `update_sound` hands the mutator the whole `Sound`,
so a mutator that rewrites `channels` breaks it (the detectors are not
resized). -/
theorem c7_channel_inv_counterexample :
    soundsChannelInv mDet
    ∧ ¬ soundsChannelInv (mDet.update_sound 0 (fun s => { s with channels := 2 })).2 := by
  unfold soundsChannelInv
  exact ⟨by decide, by decide⟩

/-- C7, amended: `channel_detectors.length = sound.channels` is established by
`ActiveSound::new` and preserved by `insert_sound` (for entries satisfying
it), `remove_sound`, and by `update_sound` / `update_sounds_with_source`
whenever the supplied mutator preserves the sound's channel count. -/
theorem c7_channel_inv_amended :
    (∀ s : Sound, (ActiveSound.new s).channel_detectors.length = s.channels)
    ∧ (∀ (m : Model) (id : ℕ) (f : Sound → Sound),
        (∀ s, (f s).channels = s.channels) → soundsChannelInv m →
        soundsChannelInv (m.update_sound id f).2)
    ∧ (∀ (m : Model) (src : ℕ) (f : ℕ → Sound → Sound),
        (∀ i s, (f i s).channels = s.channels) → soundsChannelInv m →
        soundsChannelInv (m.update_sounds_with_source src f).2)
    ∧ (∀ (m : Model) (id : ℕ) (a : ActiveSound),
        a.channel_detectors.length = a.sound.channels → soundsChannelInv m →
        soundsChannelInv (m.insert_sound id a).model)
    ∧ (∀ (m : Model) (id : ℕ), soundsChannelInv m →
        soundsChannelInv (m.remove_sound id).model) := by
  refine ⟨?_, ?_, ?_, ?_, ?_⟩
  · intro s
    simp [ActiveSound.new]
  · intro m id f hf hm e he
    cases hl : lookupK m.sounds id with
    | none => simp [Model.update_sound, hl] at he; exact hm e he
    | some a0 =>
        have he' : e ∈ m.sounds.map (fun p =>
            if p.1 = id then (p.1, { p.2 with sound := f p.2.sound }) else p) := by
          simpa [Model.update_sound, hl] using he
        rcases List.mem_map.mp he' with ⟨p, hp, hpe'⟩
        by_cases hpe : p.1 = id
        · rw [← hpe']
          simp [hpe, hf]
          exact hm p hp
        · rw [← hpe']
          simp [hpe]
          exact hm p hp
  · intro m src f hf hm e he
    have he' : e ∈ m.sounds.map (fun p =>
        if p.2.sound.source_id = src then (p.1, { p.2 with sound := f p.1 p.2.sound }) else p) := by
      simpa [Model.update_sounds_with_source] using he
    rcases List.mem_map.mp he' with ⟨p, hp, hpe'⟩
    by_cases hpe : p.2.sound.source_id = src
    · rw [← hpe']
      simp [hpe, hf]
      exact hm p hp
    · rw [← hpe']
      simp [hpe]
      exact hm p hp
  · intro m id a ha hm e he
    simp [Model.insert_sound] at he
    rcases he with he | rfl
    · exact hm e (List.mem_of_mem_filter he)
    · exact ha
  · intro m id hm e he
    cases hl : lookupK m.sounds id with
    | none => simp [Model.remove_sound, hl] at he; exact hm e he
    | some a0 =>
        simp [Model.remove_sound, hl] at he
        exact hm e (List.mem_of_mem_filter he)

/-- C7 witness: a channel-count-preserving mutator applied on a concrete model
keeps the invariant. -/
theorem c7_channel_inv_amended_witness :
    soundsChannelInv (mDet.update_sound 0 (fun s => { s with volume := 2 })).2 :=
  c7_channel_inv_amended.2.1 mDet 0 (fun s => { s with volume := 2 })
    (fun s => rfl) (by unfold soundsChannelInv; decide)

/-- C2: `insert_speaker` at a present id returns the previously stored
speaker and keeps the existing envelope and FFT detectors; at an absent id it
returns `none` and installs fresh detectors; in both cases exactly one `Add`
GUI message is attempted.  Detector feeding composes over concatenated sample
histories, so the preserved detector reflects all samples fed before and
after the re-insertion. -/
theorem c2_insert_speaker_detector_continuity (m : Model) (id : ℕ) (spk : Speaker) :
    (∀ old, lookupK m.speakers id = some old →
      (m.insert_speaker id spk).returned = some old.speaker
      ∧ lookupK (m.insert_speaker id spk).model.speakers id =
          some { speaker := spk, env_detector := old.env_detector
                 fft_detector := old.fft_detector }
      ∧ (m.insert_speaker id spk).gui = [.speaker id .add])
    ∧ (lookupK m.speakers id = none →
      (m.insert_speaker id spk).returned = none
      ∧ lookupK (m.insert_speaker id spk).model.speakers id =
          some { speaker := spk, env_detector := EnvDetector.new
                 fft_detector := FftDetector.new }
      ∧ (m.insert_speaker id spk).gui = [.speaker id .add])
    ∧ (∀ (d : EnvDetector) (pre post : List ℚ),
        post.foldl EnvDetector.next (pre.foldl EnvDetector.next d) =
          (pre ++ post).foldl EnvDetector.next d) := by
  refine ⟨?_, ?_, ?_⟩
  · intro old h
    refine ⟨by simp [Model.insert_speaker, h], ?_, rfl⟩
    have hs : (m.insert_speaker id spk).model.speakers =
        eraseKey m.speakers id ++
          [(id, { speaker := spk, env_detector := old.env_detector
                  fft_detector := old.fft_detector })] := by
      simp [Model.insert_speaker, h]
    rw [hs, lookupK_erase_append_self]
  · intro h
    refine ⟨by simp [Model.insert_speaker, h], ?_, rfl⟩
    have hs : (m.insert_speaker id spk).model.speakers =
        eraseKey m.speakers id ++
          [(id, { speaker := spk, env_detector := EnvDetector.new
                  fft_detector := FftDetector.new })] := by
      simp [Model.insert_speaker, h]
    rw [hs, lookupK_erase_append_self]
  · intro d pre post
    rw [List.foldl_append]

/-- C2 witness: re-insertion at the present id 7 preserves the detector and
returns the displaced speaker. -/
theorem c2_insert_speaker_detector_continuity_witness :
    (mW2.insert_speaker 7 spkNewW2).returned = some (spkAt [.instA] 0 [2]).speaker
    ∧ lookupK (mW2.insert_speaker 7 spkNewW2).model.speakers 7 =
        some { speaker := spkNewW2, env_detector := (spkAt [.instA] 0 [2]).env_detector
               fft_detector := (spkAt [.instA] 0 [2]).fft_detector }
    ∧ (mW2.insert_speaker 7 spkNewW2).gui = [.speaker 7 .add] :=
  (c2_insert_speaker_detector_continuity mW2 7 spkNewW2).1 (spkAt [.instA] 0 [2]) (by decide)

theorem mem_of_lookupK {κ α : Type} [DecidableEq κ] (l : List (κ × α)) (k : κ) (a : α)
    (h : lookupK l k = some a) : (k, a) ∈ l := by
  induction l with
  | nil => simp [lookupK] at h
  | cons p t ih =>
      by_cases hp : p.1 = k
      · simp [lookupK, hp] at h
        exact List.mem_cons.mpr (Or.inl (Prod.ext hp h).symm)
      · simp [lookupK, hp] at h
        exact List.mem_cons.mpr (Or.inr (ih h))

theorem mem_flatten_exh (ctx : SoundCtx) (t : List (ℕ × ActiveSound)) (j : ℕ)
    (h : j ∈ (t.map (soundExhaustedIds ctx)).flatten) : j ∈ t.map Prod.fst := by
  rcases List.mem_flatten.mp h with ⟨ms, hms, hj⟩
  rcases List.mem_map.mp hms with ⟨e, he, rfl⟩
  rw [mem_soundExhaustedIds ctx e j hj]
  exact List.mem_map.mpr ⟨e, he, rfl⟩

theorem flatten_exh_nodup (ctx : SoundCtx) (l : List (ℕ × ActiveSound))
    (hnd : (l.map Prod.fst).Nodup) :
    ((l.map (soundExhaustedIds ctx)).flatten).Nodup := by
  induction l with
  | nil => simp
  | cons e t ih =>
      rw [List.map_cons, List.flatten_cons]
      rw [List.map_cons] at hnd
      have hnd' := List.nodup_cons.mp hnd
      refine List.Nodup.append ?_ (ih hnd'.2) ?_
      · rcases soundExhaustedIds_cases ctx e with hc | hc <;> simp [hc]
      · intro j hj hj'
        have h1 : j = e.1 := mem_soundExhaustedIds ctx e j hj
        have h2 : j ∈ t.map Prod.fst := mem_flatten_exh ctx t j hj'
        exact hnd'.1 (h1 ▸ h2)

theorem not_mem_flatten_exh (ctx : SoundCtx) (l : List (ℕ × ActiveSound))
    (id : ℕ) (a : ActiveSound) (hnd : (l.map Prod.fst).Nodup)
    (hl : lookupK l id = some a) (hx : soundExhaustedIds ctx (id, a) = []) :
    id ∉ (l.map (soundExhaustedIds ctx)).flatten := by
  intro hmem
  rcases lookupK_decomp l id a hl with ⟨l₁, l₂, rfl, hn1⟩
  have hkeys : (l₁.map Prod.fst ++ id :: l₂.map Prod.fst).Nodup := by
    rw [List.map_append, List.map_cons] at hnd
    exact hnd
  have hid2 : id ∉ l₂.map Prod.fst :=
    (List.nodup_cons.mp (List.nodup_append.mp hkeys).2.1).1
  rcases List.mem_flatten.mp hmem with ⟨ms, hms, hj⟩
  rcases List.mem_map.mp hms with ⟨e, he, rfl⟩
  have hkey : id = e.1 := mem_soundExhaustedIds ctx e id hj
  rcases List.mem_append.mp he with h1 | h12
  · apply hn1
    rw [hkey]
    exact List.mem_map.mpr ⟨e, h1, rfl⟩
  · rcases List.mem_cons.mp h12 with heq | h2
    · rw [heq, hx] at hj
      simp at hj
    · apply hid2
      rw [hkey]
      exact List.mem_map.mpr ⟨e, h2, rfl⟩

theorem lookupK_processed (ctx : SoundCtx) (l : List (ℕ × ActiveSound)) (k : ℕ) :
    lookupK (l.map (soundProcessed ctx)) k =
      (lookupK l k).map (fun a => (soundProcessed ctx (k, a)).2) :=
  lookupK_map_keyfix _ (soundProcessed_fst ctx) l k

theorem unmixedOf_length (n : ℕ) (sig : Signal) : (unmixedOf n sig).length = n := by
  simp [unmixedOf, List.length_take]

theorem unmixedOf_pad (n : ℕ) (sig : Signal) (h : sig.remaining.length < n) :
    (unmixedOf n sig).drop sig.remaining.length
      = List.replicate (n - sig.remaining.length) 0 := by
  have ht : (sig.remaining.take n).length = sig.remaining.length := by
    simp [List.length_take]
    omega
  show (sig.remaining.take n
        ++ List.replicate (n - (sig.remaining.take n).length) 0).drop
          sig.remaining.length = _
  rw [← ht, List.drop_left]

theorem soundSkipsSilent_false (soloed : List ℕ) (s : Sound) (hm : s.muted = false)
    (hsolo : soloed = [] ∨ s.source_id ∈ soloed) : soundSkipsSilent soloed s = false := by
  rcases hsolo with rfl | hs
  · simp [soundSkipsSilent, hm]
  · simp [soundSkipsSilent, hm, hs]

theorem soundSkipsSilent_true (soloed : List ℕ) (s : Sound)
    (h : s.muted = true ∨ (¬ soloed = [] ∧ s.source_id ∉ soloed)) :
    soundSkipsSilent soloed s = true := by
  rcases h with hm | ⟨hne, hnm⟩
  · simp [soundSkipsSilent, hm]
  · simp [soundSkipsSilent, hne, hnm, List.isEmpty_iff]

theorem soundExhaustedIds_active_lt (ctx : SoundCtx) (id : ℕ) (a : ActiveSound)
    (hp : a.sound.playing = true) (hs : soundSkipsSilent ctx.soloed a.sound = false)
    (hlen : (seekSignal ctx.frame_count a.sound.signal).remaining.length
              < ctx.bufFrames * a.sound.channels) :
    soundExhaustedIds ctx (id, a) = [id] := by
  simp only [soundExhaustedIds, hp, hs, Bool.not_true, Bool.false_eq_true, if_false,
    List.length_take]
  rw [if_pos (by omega)]

theorem soundExhaustedIds_silent_lt (ctx : SoundCtx) (id : ℕ) (a : ActiveSound)
    (hp : a.sound.playing = true) (hs : soundSkipsSilent ctx.soloed a.sound = true)
    (hlen : a.sound.signal.remaining.length < ctx.bufFrames * a.sound.channels) :
    soundExhaustedIds ctx (id, a) = [id] := by
  simp only [soundExhaustedIds, hp, hs, Bool.not_true, Bool.false_eq_true, if_false,
    if_true]
  rw [if_pos (by omega)]

theorem soundExhaustedIds_silent_le (ctx : SoundCtx) (id : ℕ) (a : ActiveSound)
    (hp : a.sound.playing = true) (hs : soundSkipsSilent ctx.soloed a.sound = true)
    (hlen : ctx.bufFrames * a.sound.channels ≤ a.sound.signal.remaining.length) :
    soundExhaustedIds ctx (id, a) = [] := by
  simp only [soundExhaustedIds, hp, hs, Bool.not_true, Bool.false_eq_true, if_false,
    if_true]
  rw [if_neg (by omega)]

theorem soundProcessed_silent (ctx : SoundCtx) (id : ℕ) (a : ActiveSound)
    (hp : a.sound.playing = true) (hs : soundSkipsSilent ctx.soloed a.sound = true) :
    (soundProcessed ctx (id, a)).2 =
      { sound := { a.sound with
          signal := advanceSignal (ctx.bufFrames * a.sound.channels) a.sound.signal }
        channel_detectors := a.channel_detectors
        total_duration_frames := a.total_duration_frames } := by
  simp [soundProcessed, hp, hs]

theorem soundFramesUpd_silent (ctx : SoundCtx) (e : ℕ × ActiveSound)
    (fr : List (List ℚ)) (hp : e.2.sound.playing = true)
    (hs : soundSkipsSilent ctx.soloed e.2.sound = true) :
    soundFramesUpd ctx e fr = fr := by
  simp [soundFramesUpd, hp, hs]

theorem eraseKey_decomp {κ α : Type} [DecidableEq κ] (l₁ l₂ : List (κ × α)) (k : κ)
    (a : α) (h1 : k ∉ l₁.map Prod.fst) (h2 : k ∉ l₂.map Prod.fst) :
    eraseKey (l₁ ++ (k, a) :: l₂) k = l₁ ++ l₂ := by
  have hf : ∀ (l : List (κ × α)), k ∉ l.map Prod.fst →
      l.filter (fun p => ¬ p.1 = k) = l := by
    intro l hl
    apply List.filter_eq_self.mpr
    intro p hp
    simp only [decide_eq_true_eq]
    intro hc
    exact hl (List.mem_map.mpr ⟨p, hp, hc⟩)
  unfold eraseKey
  rw [List.filter_append, List.filter_cons, hf l₁ h1, hf l₂ h2]
  simp

theorem renderSounds_exhausted (m : Model) (b : Buffer) (hx0 : m.exhausted_sounds = []) :
    (renderSoundsPhase m b).exhausted =
      (m.sounds.map (soundExhaustedIds (renderCtx m b))).flatten := by
  rw [renderSoundsPhase, soundsPhase_exhausted]
  show m.exhausted_sounds ++ _ = _
  rw [hx0]
  rfl

theorem renderSounds_processed (m : Model) (b : Buffer) :
    (renderSoundsPhase m b).processed = m.sounds.map (soundProcessed (renderCtx m b)) := by
  rw [renderSoundsPhase, soundsPhase_processed]
  rfl

/-- C3: a playing, non-muted, not-soloed-out sound whose (possibly reseeked)
signal yields fewer samples than `num_samples = buffer_frames * channels` has
its unmixed buffer padded with silence to exactly `num_samples`, is recorded
as exhausted, and is removed from the model in the same invocation with
exactly one `End` GUI notification and one soundscape removal attempted for
it; the removal loop's `unwrap` cannot panic. -/
theorem c3_exhausted_sound_removed (m : Model) (b : Buffer) (id : ℕ) (a : ActiveSound)
    (hnd : (m.sounds.map Prod.fst).Nodup)
    (hx0 : m.exhausted_sounds = [])
    (hl : lookupK m.sounds id = some a)
    (hp : a.sound.playing = true)
    (hmt : a.sound.muted = false)
    (hsolo : m.soloed = [] ∨ a.sound.source_id ∈ m.soloed)
    (hlen : (seekSignal m.frame_count a.sound.signal).remaining.length
              < b.frames.length * a.sound.channels) :
    (render m b).panicked = false
    ∧ lookupK (render m b).model.sounds id = none
    ∧ (render m b).gui.countP (isEndFor id) = 1
    ∧ (render m b).soundscape.countP (isSscRemovalFor id) = 1
    ∧ id ∈ (renderSoundsPhase m b).exhausted
    ∧ (unmixedOf (b.frames.length * a.sound.channels)
         (seekSignal m.frame_count a.sound.signal)).length
        = b.frames.length * a.sound.channels
    ∧ (unmixedOf (b.frames.length * a.sound.channels)
         (seekSignal m.frame_count a.sound.signal)).drop
           (seekSignal m.frame_count a.sound.signal).remaining.length
        = List.replicate (b.frames.length * a.sound.channels
            - (seekSignal m.frame_count a.sound.signal).remaining.length) 0 := by
  have hs : soundSkipsSilent m.soloed a.sound = false :=
    soundSkipsSilent_false _ _ hmt hsolo
  have hxid : soundExhaustedIds (renderCtx m b) (id, a) = [id] :=
    soundExhaustedIds_active_lt (renderCtx m b) id a hp hs hlen
  have hExh := renderSounds_exhausted m b hx0
  have hmemflat : id ∈ (m.sounds.map (soundExhaustedIds (renderCtx m b))).flatten := by
    refine List.mem_flatten.mpr ⟨soundExhaustedIds (renderCtx m b) (id, a),
      List.mem_map.mpr ⟨(id, a), mem_of_lookupK _ _ _ hl, rfl⟩, ?_⟩
    rw [hxid]
    simp
  have hmemExh : id ∈ (renderSoundsPhase m b).exhausted := by
    rw [hExh]
    exact hmemflat
  have hndExh : (renderSoundsPhase m b).exhausted.Nodup := by
    rw [hExh]
    exact flatten_exh_nodup _ m.sounds hnd
  have hproc := renderSounds_processed m b
  have hlookp : lookupK (renderSoundsPhase m b).processed id
      = some ((soundProcessed (renderCtx m b) (id, a)).2) := by
    rw [hproc, lookupK_processed, hl]
    rfl
  have hrm := removeFold_mem (renderSoundsPhase m b).exhausted
      { sounds := (renderSoundsPhase m b).processed, gui := [], soundscape := []
        panicked := false }
      id ((soundProcessed (renderCtx m b) (id, a)).2) hndExh hmemExh hlookp
  have hpan : (renderRemoval m b).panicked = false := by
    refine removeFold_no_panic _ _ hndExh ?_ rfl
    intro j hj
    rw [hExh] at hj
    have hjk : j ∈ m.sounds.map Prod.fst := mem_flatten_exh _ m.sounds j hj
    have hjs := lookupK_isSome_of_mem_keys m.sounds j hjk
    show (lookupK (renderSoundsPhase m b).processed j).isSome
    rw [hproc, lookupK_processed]
    cases hlj : lookupK m.sounds j with
    | none => rw [hlj] at hjs; simp at hjs
    | some aj => rfl
  have hcsp : (renderSoundsPhase m b).gui.countP (isEndFor id) = 0 := by
    apply List.countP_eq_zero.mpr
    intro msg hm
    rw [renderSoundsPhase, soundsPhase_gui] at hm
    rcases List.mem_append.mp hm with h0 | h1
    · simp at h0
    · rcases List.mem_flatten.mp h1 with ⟨ms, hms, hmem⟩
      rcases List.mem_map.mp hms with ⟨e, he, rfl⟩
      simp [(soundGuiMsgs_shape _ _ _ hmem).1 id]
  have hcspk : (renderSpeakerPhase m b).gui.countP (isEndFor id) = 0 := by
    apply List.countP_eq_zero.mpr
    intro msg hm
    rw [renderSpeakerPhase, speakerFold_gui] at hm
    rcases List.mem_append.mp hm with h0 | h1
    · simp at h0
    · rcases List.mem_flatten.mp h1 with ⟨ms, hms, hmem⟩
      rcases List.mem_map.mp hms with ⟨e, he, rfl⟩
      simp [(speakerGuiMsgs_shape _ _ _ _ hmem).1 id]
  have hcrem : (renderRemoval m b).gui.countP (isEndFor id) = 1 := by
    have := hrm.2.1
    simpa using this
  have hcssc : (renderRemoval m b).soundscape.countP (isSscRemovalFor id) = 1 := by
    have := hrm.2.2
    simpa using this
  refine ⟨hpan, ?_, ?_, ?_, hmemExh, unmixedOf_length _ _, unmixedOf_pad _ _ hlen⟩
  · exact hrm.1
  · have hgui : (render m b).gui
        = (renderSoundsPhase m b).gui ++ (renderSpeakerPhase m b).gui
          ++ (renderRemoval m b).gui
          ++ [AudioMonitorMessage.master (masterPeak (renderOutBuffer m b))] := rfl
    rw [hgui, List.countP_append, List.countP_append, List.countP_append,
        hcsp, hcspk, hcrem]
    simp [isEndFor]
  · have hssc : (render m b).soundscape = (renderRemoval m b).soundscape := rfl
    rw [hssc]
    exact hcssc

/-- C3 witness: a one-sample sound pulled by a two-frame buffer is padded,
marked exhausted, and removed with exactly one `End` and one soundscape
notification. -/
theorem c3_exhausted_sound_removed_witness :
    (render mW3 bW3).panicked = false
    ∧ lookupK (render mW3 bW3).model.sounds 5 = none
    ∧ (render mW3 bW3).gui.countP (isEndFor 5) = 1
    ∧ (render mW3 bW3).soundscape.countP (isSscRemovalFor 5) = 1
    ∧ 5 ∈ (renderSoundsPhase mW3 bW3).exhausted
    ∧ (unmixedOf (bW3.frames.length * (ActiveSound.new (monoSound [1])).sound.channels)
         (seekSignal mW3.frame_count (ActiveSound.new (monoSound [1])).sound.signal)).length
        = bW3.frames.length * (ActiveSound.new (monoSound [1])).sound.channels
    ∧ (unmixedOf (bW3.frames.length * (ActiveSound.new (monoSound [1])).sound.channels)
         (seekSignal mW3.frame_count (ActiveSound.new (monoSound [1])).sound.signal)).drop
           (seekSignal mW3.frame_count
             (ActiveSound.new (monoSound [1])).sound.signal).remaining.length
        = List.replicate (bW3.frames.length * (ActiveSound.new (monoSound [1])).sound.channels
            - (seekSignal mW3.frame_count
                (ActiveSound.new (monoSound [1])).sound.signal).remaining.length) 0 :=
  c3_exhausted_sound_removed mW3 bW3 5 (ActiveSound.new (monoSound [1]))
    (by decide) (by decide) (by decide) (by decide) (by decide)
    (Or.inl (by decide)) (by decide)

/-- C4: a playing sound that is muted, or whose source is outside a non-empty
solo set, contributes nothing to the output buffer (rendering with it equals
rendering without it), keeps its channel envelope detectors unchanged, and has
its signal advanced by exactly `num_samples = buffer_frames * channels`; if
the signal held fewer samples than that, the sound is recorded as exhausted
and removed. -/
theorem c4_silent_sound_advances (m : Model) (b : Buffer) (id : ℕ) (a : ActiveSound)
    (hnd : (m.sounds.map Prod.fst).Nodup)
    (hx0 : m.exhausted_sounds = [])
    (hl : lookupK m.sounds id = some a)
    (hp : a.sound.playing = true)
    (hsil : a.sound.muted = true ∨ (¬ m.soloed = [] ∧ a.sound.source_id ∉ m.soloed)) :
    (render m b).buffer = (render { m with sounds := eraseKey m.sounds id } b).buffer
    ∧ (b.frames.length * a.sound.channels ≤ a.sound.signal.remaining.length →
        lookupK (render m b).model.sounds id =
          some { sound := { a.sound with
                   signal := advanceSignal (b.frames.length * a.sound.channels)
                     a.sound.signal }
                 channel_detectors := a.channel_detectors
                 total_duration_frames := a.total_duration_frames })
    ∧ (a.sound.signal.remaining.length < b.frames.length * a.sound.channels →
        id ∈ (renderSoundsPhase m b).exhausted
        ∧ lookupK (render m b).model.sounds id = none) := by
  have hs : soundSkipsSilent m.soloed a.sound = true := soundSkipsSilent_true _ _ hsil
  rcases lookupK_decomp m.sounds id a hl with ⟨l₁, l₂, hsplit, hn1⟩
  have hnd' := hnd
  rw [hsplit, List.map_append, List.map_cons] at hnd'
  have hid2 : id ∉ l₂.map Prod.fst :=
    (List.nodup_cons.mp (List.nodup_append.mp hnd').2.1).1
  have herase : eraseKey m.sounds id = l₁ ++ l₂ := by
    rw [hsplit]
    exact eraseKey_decomp l₁ l₂ id a hn1 hid2
  have hproc := renderSounds_processed m b
  have hlookp : lookupK (renderSoundsPhase m b).processed id
      = some ((soundProcessed (renderCtx m b) (id, a)).2) := by
    rw [hproc, lookupK_processed, hl]
    rfl
  refine ⟨?_, ?_, ?_⟩
  · have hctx : renderCtx { m with sounds := eraseKey m.sounds id } b = renderCtx m b := rfl
    have hframes : (renderSoundsPhase { m with sounds := eraseKey m.sounds id } b).frames
        = (renderSoundsPhase m b).frames := by
      rw [renderSoundsPhase, renderSoundsPhase, soundsPhase_frames, soundsPhase_frames]
      show (eraseKey m.sounds id).foldl _ _ = m.sounds.foldl _ _
      rw [hctx, herase, hsplit, List.foldl_append, List.foldl_append,
          List.foldl_cons, soundFramesUpd_silent (renderCtx m b) (id, a) _ hp hs]
    show renderOutBuffer m b = renderOutBuffer { m with sounds := eraseKey m.sounds id } b
    unfold renderOutBuffer
    rw [hframes]
  · intro hle
    have hxid0 : soundExhaustedIds (renderCtx m b) (id, a) = [] :=
      soundExhaustedIds_silent_le (renderCtx m b) id a hp hs hle
    have hnotmem : id ∉ (renderSoundsPhase m b).exhausted := by
      rw [renderSounds_exhausted m b hx0]
      exact not_mem_flatten_exh (renderCtx m b) m.sounds id a hnd hl hxid0
    have h' := removeFold_lookup_not_mem (renderSoundsPhase m b).exhausted
      { sounds := (renderSoundsPhase m b).processed, gui := [], soundscape := []
        panicked := false } id hnotmem
    have hfin : lookupK (render m b).model.sounds id
        = some ((soundProcessed (renderCtx m b) (id, a)).2) := h'.trans hlookp
    rw [soundProcessed_silent (renderCtx m b) id a hp hs] at hfin
    exact hfin
  · intro hlt
    have hxid : soundExhaustedIds (renderCtx m b) (id, a) = [id] :=
      soundExhaustedIds_silent_lt (renderCtx m b) id a hp hs hlt
    have hExh := renderSounds_exhausted m b hx0
    have hmemExh : id ∈ (renderSoundsPhase m b).exhausted := by
      rw [hExh]
      refine List.mem_flatten.mpr ⟨soundExhaustedIds (renderCtx m b) (id, a),
        List.mem_map.mpr ⟨(id, a), mem_of_lookupK _ _ _ hl, rfl⟩, ?_⟩
      rw [hxid]
      simp
    have hndExh : (renderSoundsPhase m b).exhausted.Nodup := by
      rw [hExh]
      exact flatten_exh_nodup _ m.sounds hnd
    have hrm := removeFold_mem (renderSoundsPhase m b).exhausted
        { sounds := (renderSoundsPhase m b).processed, gui := [], soundscape := []
          panicked := false }
        id ((soundProcessed (renderCtx m b) (id, a)).2) hndExh hmemExh hlookp
    exact ⟨hmemExh, hrm.1⟩

/-- C4 witness: the muted sound's signal advances by one sample while the
buffers with and without it coincide. -/
theorem c4_silent_sound_advances_witness :
    (render mW4 bW4).buffer = (render { mW4 with sounds := eraseKey mW4.sounds 4 } bW4).buffer
    ∧ lookupK (render mW4 bW4).model.sounds 4 =
        some { sound := { aW4.sound with
                 signal := advanceSignal (bW4.frames.length * aW4.sound.channels)
                   aW4.sound.signal }
               channel_detectors := aW4.channel_detectors
               total_duration_frames := aW4.total_duration_frames } := by
  have h := c4_silent_sound_advances mW4 bW4 4 aW4 (by decide) (by decide) (by decide)
    (by decide) (Or.inl (by decide))
  exact ⟨h.1, h.2.1 (by decide)⟩
